import Mathlib

/-!
# Verification of promptcat's encrypted-vault subsystem

Shallow embedding of the vault-related logic of `src/scripts/promptcat.js`:
the `CryptoService` primitives, the lock/unlock handlers for folders and
prompts, the cross-folder move handler, the save handler, and the
effective-lock computations used by the rendering/interaction layer.

The AES-GCM-with-PBKDF2 primitive (delegated by the source to the Web
Crypto API) is modelled symbolically, in the ideal-cipher style: a
ciphertext records the payload it encrypts and the password whose derived
key produced it, and authenticated decryption succeeds exactly when the
supplied password matches (a real tag mismatch fails with overwhelming
probability; the model makes it certain).  Randomness (the fresh salt and
iv that `encrypt` draws per call) is supplied by the caller as a natural
seed.  All control flow around the primitive - the falsy-input guards, the
fallback returns, the error sentinel - is translated from the source.
-/

/-- Symbolic AES-GCM ciphertext, the object shape produced by
`CryptoService.encrypt` (fields `ct`/`iv`/`salt` in the source).  `payload`
is the plaintext the `ct` member encrypts, and `pw` the password whose
PBKDF2-derived key was used; `salt`/`iv` record the random values drawn for
this call.  The base64 `ct` string of a real AES-GCM encryption is never
empty (it always contains the 16-byte tag), so the source's `!data.ct`
guard is false on every ciphertext this model can produce. -/
structure Cipher where
  payload : String
  pw : String
  salt : Nat
  iv : Nat
deriving DecidableEq, Repr

/-- A JavaScript value flowing through the vault's content fields
(`body`, `notes`, `passwordCheck`): a plain string, a ciphertext object,
`null`, or `undefined` (an absent field). -/
inductive JVal where
  | str : String → JVal
  | cipher : Cipher → JVal
  | jnull : JVal
  | undef : JVal
deriving DecidableEq, Repr

/-- JS strict equality `v === s` between a vault value and a string:
only a plain string compares equal to a string. -/
def jvalIsStrEq (v : JVal) (s : String) : Bool :=
  match v with
  | .str t => t == s
  | _ => false

/-- Is the value ciphertext-shaped (an object with a `ct` member)? -/
def isCipher (v : JVal) : Bool :=
  match v with
  | .cipher _ => true
  | _ => false

/-- Is the value a plain string? -/
def plainStr (v : JVal) : Bool :=
  match v with
  | .str _ => true
  | _ => false

/-- `CryptoService.encrypt` (promptcat.js lines 43-65).  `if (!text ||
!password) return text`: an empty string, `null` or `undefined` text, or an
empty password, is returned unchanged.  Otherwise a fresh salt and iv are
drawn (here: the caller-supplied seed `r`), a key is derived from
`password`, and the UTF-8 encoding of `text` is encrypted.  When `text` is
a non-null object, `TextEncoder.encode` coerces it with ToString, so a
ciphertext object is encrypted as the eleven characters of
`"[object Object]"` - the original object is lost.  The internal catch
branch (fall back to returning `text`) is unreachable in the model because
symbolic encryption always succeeds. -/
def encryptJS (text : JVal) (password : String) (r : Nat) : JVal :=
  match text with
  | .jnull => .jnull
  | .undef => .undef
  | .str s => if s = "" ∨ password = "" then .str s else .cipher ⟨s, password, r, r⟩
  | .cipher _ =>
      if password = "" then text else .cipher ⟨"[object Object]", password, r, r⟩

/-- `CryptoService.decrypt` (promptcat.js lines 67-86).  The guard
`typeof data !== "object" || !data.ct || !password` returns non-objects
(strings, `undefined`) and empty-password calls unchanged; `!data.ct` is
never true of a produced ciphertext (see `Cipher`).  For `data === null`
the guard itself throws a TypeError (`typeof null` is `"object"`, so
`null.ct` is dereferenced outside the try block): that one input is
modelled as `none`.  Inside the try block the key is rebuilt from
`data.salt` and the password, and authenticated decryption either yields
the payload or fails (wrong password, i.e. wrong key, fails the tag
check), in which case the catch branch returns the sentinel `null`. -/
def decryptJS (data : JVal) (password : String) : Option JVal :=
  match data with
  | .str s => some (.str s)
  | .undef => some .undef
  | .jnull => none
  | .cipher c =>
      if password = "" then some (.cipher c)
      else if c.pw = password then some (.str c.payload) else some .jnull

/-- Round-trip helper: decrypting an encryption of a string with the same
password recovers the string, in every case of the falsy guards. -/
theorem decrypt_encrypt_roundtrip (s p : String) (r : Nat) :
    decryptJS (encryptJS (.str s) p r) p = some (.str s) := by
  by_cases hs : s = "" <;> by_cases hp : p = "" <;>
    simp [encryptJS, decryptJS, hs, hp]

/-- Wrong-password helper: a real encryption decrypted under a different,
non-empty password yields the `null` sentinel. -/
theorem decrypt_encrypt_wrong_pw (s p₁ p₂ : String) (r : Nat)
    (hs : s ≠ "") (h₁ : p₁ ≠ "") (h₂ : p₂ ≠ "") (hne : p₁ ≠ p₂) :
    decryptJS (encryptJS (.str s) p₁ r) p₂ = some .jnull := by
  simp [encryptJS, decryptJS, hs, h₁, h₂, hne]

/-- `toString` of a `Nat` (JS `String(id)` on an integer id) is never the
empty string, so encrypting it with a non-empty password always yields a
ciphertext.  Auxiliary induction on the fuel of `Nat.toDigitsCore`. -/
theorem toDigitsCore_ne_nil : ∀ (f n : Nat) (l : List Char), l ≠ [] →
    Nat.toDigitsCore 10 f n l ≠ [] := by
  intro f
  induction f with
  | zero => intro n l hl; simpa [Nat.toDigitsCore] using hl
  | succ f ih =>
    intro n l hl
    simp only [Nat.toDigitsCore]
    split
    · simp
    · exact ih (n / 10) _ (by simp)

/-- JS `String(n)` for a natural number is non-empty. -/
theorem natToString_ne_empty (n : Nat) : toString n ≠ "" := by
  show Nat.repr n ≠ ""
  simp only [Nat.repr, Nat.toDigits]
  have h : Nat.toDigitsCore 10 (n + 1) n [] ≠ [] := by
    simp only [Nat.toDigitsCore]
    split
    · simp
    · exact toDigitsCore_ne_nil n (n / 10) _ (by simp)
  intro hc
  apply h
  have := congrArg String.data hc
  simpa [List.asString] using this

/-- A folder record, restricted to the fields the vault subsystem reads or
writes (`id`, `name`, `isLocked`, `passwordCheck`); ids are the
`Date.now()` timestamps the source uses, modelled as `Nat`. -/
structure Folder where
  id : Nat
  name : String
  isLocked : Bool
  passwordCheck : JVal
deriving DecidableEq, Repr

/-- A prompt record, restricted to the fields the vault subsystem reads or
writes.  `folderId` is `none` for JS `null` (no folder); `tags`,
`isFavorite` and the date stamps are never consulted by the lock, move or
encryption logic and are omitted. -/
structure Prompt where
  id : Nat
  title : String
  body : JVal
  notes : JVal
  folderId : Option Nat
  isLocked : Bool
  passwordCheck : JVal
deriving DecidableEq, Repr

/-- `state.folders.find(f => f.id === prompt.folderId)`: the owning folder
of a prompt; a `null` folderId matches no folder. -/
def lookupFolder (folders : List Folder) (p : Prompt) : Option Folder :=
  match p.folderId with
  | none => none
  | some fid => folders.find? (fun f => f.id == fid)

/-- In-place mutation of a folder object held in `state.folders`: the list
entry with the mutated folder's id now holds the new record.  (Folder ids
are unique creation timestamps, so replacing by id models the aliasing.) -/
def replaceFolder (folders : List Folder) (f' : Folder) : List Folder :=
  folders.map (fun f => if f.id == f'.id then f' else f)

/-- In-place mutation of a prompt object held in `state.prompts`. -/
def replacePrompt (prompts : List Prompt) (p' : Prompt) : List Prompt :=
  prompts.map (fun p => if p.id == p'.id then p' else p)

/-- The `for (const p of promptsToUpdate)` loop of the lock branch of
`handleToggleFolderLock` (lines 2673-2679): every prompt whose `folderId`
equals the folder's id has its `body` and `notes` passed through
`CryptoService.encrypt` under the chosen password, each call drawing fresh
randomness (seeds are threaded left to right).  Returns the updated prompt
list and the next unused seed. -/
def lockFolderPrompts (fid : Nat) (password : String) :
    List Prompt → Nat → List Prompt × Nat
  | [], g => ([], g)
  | p :: rest, g =>
    if p.folderId == some fid then
      let p' := { p with body := encryptJS p.body password g,
                         notes := encryptJS p.notes password (g + 1) }
      let (rest', g') := lockFolderPrompts fid password rest (g + 2)
      (p' :: rest', g')
    else
      let (rest', g') := lockFolderPrompts fid password rest g
      (p :: rest', g')

/-- The `for (const p of promptsToUpdate)` loop of the unlock branch of
`handleToggleFolderLock` (lines 2656-2659): every contained prompt's
`body` and `notes` are replaced by `CryptoService.decrypt` of their current
value - including the `null` sentinel when decryption fails; there is no
skip.  `none` propagates the TypeError thrown when a field is JS `null`. -/
def unlockFolderPrompts (fid : Nat) (password : String) :
    List Prompt → Option (List Prompt)
  | [] => some []
  | p :: rest => do
    let rest' ← unlockFolderPrompts fid password rest
    if p.folderId == some fid then do
      let b ← decryptJS p.body password
      let n ← decryptJS p.notes password
      some ({ p with body := b, notes := n } :: rest')
    else
      some (p :: rest')

/-- Outcome of `handleToggleFolderLock`: the in-memory collections after
the handler returns (the source mirrors them to the store with `bulkPut` /
`put` before returning), the next randomness seed, and whether the
"Incorrect password." alert was surfaced. -/
structure ToggleResult where
  folders : List Folder
  prompts : List Prompt
  gen : Nat
  alerted : Bool
deriving DecidableEq, Repr

/-- `handleToggleFolderLock` (promptcat.js lines 2634-2684), for the folder
`folderToEditId`.  `resp` is what `ModalService.password` resolves with
(`none` = cancel); the source treats `null` and the empty string alike via
`if (!password) return`.  Unlock branch: verify
`decrypt(passwordCheck, password) === String(folder.id)`; on mismatch alert
and abort; on success clear `isLocked`/`passwordCheck` and decrypt every
contained prompt in place.  Lock branch: set `isLocked`, stamp
`passwordCheck = encrypt(String(folder.id), password)` and encrypt every
contained prompt in place. -/
def handleToggleFolderLock (folders : List Folder) (prompts : List Prompt)
    (folderToEditId : Nat) (resp : Option String) (g : Nat) :
    Option ToggleResult :=
  match folders.find? (fun f => f.id == folderToEditId) with
  | none => some ⟨folders, prompts, g, false⟩
  | some folder =>
    if folder.isLocked then
      match resp with
      | none => some ⟨folders, prompts, g, false⟩
      | some password =>
        if password = "" then some ⟨folders, prompts, g, false⟩
        else
          match decryptJS folder.passwordCheck password with
          | none => none
          | some check =>
            if jvalIsStrEq check (toString folder.id) then
              match unlockFolderPrompts folder.id password prompts with
              | none => none
              | some prompts' =>
                let folder' := { folder with isLocked := false,
                                             passwordCheck := .jnull }
                some ⟨replaceFolder folders folder', prompts', g, false⟩
            else
              some ⟨folders, prompts, g, true⟩
    else
      match resp with
      | none => some ⟨folders, prompts, g, false⟩
      | some password =>
        if password = "" then some ⟨folders, prompts, g, false⟩
        else
          let pc := encryptJS (.str (toString folder.id)) password g
          let folder' := { folder with isLocked := true, passwordCheck := pc }
          let (prompts', g') := lockFolderPrompts folder.id password prompts (g + 1)
          some ⟨replaceFolder folders folder', prompts', g', false⟩

/-- Truthiness of a JS value that is either a string or `null`/`undefined`
(`Option.none`): `null`, `undefined` and `""` are falsy. -/
def truthyOpt (v : Option String) : Bool :=
  match v with
  | none => false
  | some s => !(s == "")

/-- Outcome of `handleConfirmMove`: the in-memory prompt list, the next
randomness seed, the ids reported as skipped (one "Skipping prompt" alert
each), whether the final `bulkPut` of the selected prompts ran, and whether
the operation was aborted by the destination-password alert. -/
structure MoveResult where
  prompts : List Prompt
  gen : Nat
  skipped : List Nat
  wrote : Bool
  destRejected : Bool
deriving DecidableEq, Repr

/-- Tail of a non-skipped iteration of the `handleConfirmMove` loop (lines
2354-2364): clear the prompt's own `isLocked`/`passwordCheck`, then either
re-encrypt the current (decrypted) content under the destination password
when one was collected (`if (destPassword)` - truthy check), or store the
current content as is; finally adopt the new folder id. -/
def moveFinish (p : Prompt) (newFolderId : Option Nat)
    (destPassword : Option String) (cb cn : JVal) (g : Nat) : Prompt × Nat :=
  if truthyOpt destPassword then
    let dp := destPassword.getD ""
    ({ p with isLocked := false, passwordCheck := .jnull,
              body := encryptJS cb dp g, notes := encryptJS cn dp (g + 1),
              folderId := newFolderId }, g + 2)
  else
    ({ p with isLocked := false, passwordCheck := .jnull,
              body := cb, notes := cn, folderId := newFolderId }, g)

/-- The ask-and-verify block that `handleConfirmMove` repeats verbatim for
a locked source folder (lines 2310-2331) and for an individually locked
prompt (lines 2332-2351): ask for the owner's password (`none` or `""` is
the falsy `!oldPass` cancel, alert "Skipping prompt." and `continue`),
verify `decrypt(pc, oldPass) === idStr`, skip on mismatch, otherwise
decrypt both content fields and finish the move. -/
def moveAskBranch (newFolderId : Option Nat) (destPassword : Option String)
    (ask : Option String) (pc : JVal) (idStr : String) (q : Prompt)
    (g : Nat) : Option (Prompt × Nat × Bool) :=
  match ask with
  | none => some (q, g, true)
  | some oldPass =>
    if oldPass = "" then some (q, g, true)
    else do
      let check ← decryptJS pc oldPass
      if jvalIsStrEq check idStr then do
        let cb ← decryptJS q.body oldPass
        let cn ← decryptJS q.notes oldPass
        let (p', g') := moveFinish q newFolderId destPassword cb cn g
        some (p', g', false)
      else
        some (q, g, true)

/-- One iteration of the `for (const prompt of promptsToUpdate)` loop of
`handleConfirmMove` (lines 2303-2365), extended to the whole prompt list:
a prompt not in the selection is not part of `promptsToUpdate` and is left
alone.  For a selected prompt, a locked source folder triggers the
ask-and-verify block against the folder's `passwordCheck`, an individually
locked prompt (in an unlocked or absent folder) triggers it against the
prompt's own, and otherwise the move finishes directly on the stored
content.  Returns the (possibly) updated prompt, the next seed, and
whether the prompt was skipped; `none` is a thrown TypeError (`decrypt`
applied to JS `null`). -/
def moveStep (folders : List Folder) (selected : List Nat)
    (newFolderId : Option Nat) (destPassword : Option String)
    (askPass : Nat → Option String) (p : Prompt) (g : Nat) :
    Option (Prompt × Nat × Bool) :=
  if p.id ∈ selected then
    match lookupFolder folders p with
    | some originalFolder =>
      if originalFolder.isLocked then
        moveAskBranch newFolderId destPassword (askPass p.id)
          originalFolder.passwordCheck (toString originalFolder.id) p g
      else if p.isLocked then
        moveAskBranch newFolderId destPassword (askPass p.id)
          p.passwordCheck (toString p.id) p g
      else
        let (p', g') := moveFinish p newFolderId destPassword p.body p.notes g
        some (p', g', false)
    | none =>
      if p.isLocked then
        moveAskBranch newFolderId destPassword (askPass p.id)
          p.passwordCheck (toString p.id) p g
      else
        let (p', g') := moveFinish p newFolderId destPassword p.body p.notes g
        some (p', g', false)
  else
    some (p, g, false)

/-- The whole per-prompt loop of `handleConfirmMove`, threading the
randomness seed and collecting skipped ids in iteration order. -/
def moveLoop (folders : List Folder) (selected : List Nat)
    (newFolderId : Option Nat) (destPassword : Option String)
    (askPass : Nat → Option String) :
    List Prompt → Nat → Option (List Prompt × Nat × List Nat)
  | [], g => some ([], g, [])
  | p :: rest, g => do
    let (p', g', sk) ← moveStep folders selected newFolderId destPassword askPass p g
    let (rest', g'', sks) ← moveLoop folders selected newFolderId destPassword askPass rest g'
    some (p' :: rest', g'', if sk then p.id :: sks else sks)

/-- The loop phase of `handleConfirmMove` followed by the
`DB.bulkPut(PROMPTS, promptsToUpdate)` commit. -/
def moveRun (folders : List Folder) (prompts : List Prompt)
    (selected : List Nat) (newFolderId : Option Nat)
    (destPassword : Option String) (askPass : Nat → Option String) (g : Nat) :
    Option MoveResult :=
  match moveLoop folders selected newFolderId destPassword askPass prompts g with
  | none => none
  | some (prompts', g', sks) => some ⟨prompts', g', sks, true, false⟩

/-- `handleConfirmMove` (promptcat.js lines 2276-2371).  `newFolderId` is
`none` for the "all" (No Folder) choice; `movePasswordInput` is the value
of the destination-password input field; `askPass` supplies the
`ModalService.password` answers for source folders/prompts.  If the
destination folder exists and is locked, its password is verified once
against its `passwordCheck` before the loop; on mismatch the handler
alerts and returns with nothing touched and nothing written. -/
def handleConfirmMove (folders : List Folder) (prompts : List Prompt)
    (selected : List Nat) (newFolderId : Option Nat)
    (movePasswordInput : String) (askPass : Nat → Option String) (g : Nat) :
    Option MoveResult :=
  let destFolder : Option Folder :=
    match newFolderId with
    | none => none
    | some fid => folders.find? (fun f => f.id == fid)
  match destFolder with
  | some df =>
    if df.isLocked then
      match decryptJS df.passwordCheck movePasswordInput with
      | none => none
      | some check =>
        if jvalIsStrEq check (toString df.id) then
          moveRun folders prompts selected newFolderId (some movePasswordInput) askPass g
        else
          some ⟨prompts, g, [], false, true⟩
    else
      moveRun folders prompts selected newFolderId none askPass g
  | none =>
    moveRun folders prompts selected newFolderId none askPass g

/-- A session-password cache lookup,
`state.sessionPasswords[key]` : an association list from keys
(`"folder-<id>"` / `"prompt-<id>"`) to the remembered plaintext password;
an absent key is JS `undefined` (`none`). -/
def lookupSession (session : List (String × String)) (key : String) :
    Option String :=
  (session.find? (fun e => e.1 == key)).map (fun e => e.2)

/-- JS string interpolation of an `int64 | null` folder id:
`` `folder-${folderId}` `` renders `null` as the four characters of
"null". -/
def optIdStr (v : Option Nat) : String :=
  match v with
  | none => "null"
  | some n => toString n

/-- JS `a || b` on string-or-undefined values: `a` unless it is falsy. -/
def jsOrStr (a b : Option String) : Option String :=
  if truthyOpt a then a else b

/-- The existing-prompt branch of `handleSavePrompt` (promptcat.js lines
1829-1850): the saved password is
`sessionPasswords["folder-" + folderId] || sessionPasswords["prompt-" + id]`
- the folder key is consulted regardless of whether that folder is locked.
If the result is truthy, `body` and `notes` (the current editor strings)
are encrypted under it; otherwise they are stored as plain strings.  The
prompt then takes the edited title and the selected folder id, and is
written through with `DB.put`.  (The `folder` local computed on line 1831
is never used and is not modelled; `tags`/`dateModified` are outside the
vault model.)  `none` is the TypeError thrown when `currentPromptId`
matches no prompt.  Returns the updated prompt list and next seed. -/
def handleSavePromptExisting (prompts : List Prompt)
    (session : List (String × String)) (currentPromptId : Nat)
    (title body notes : String) (folderIdSel : Option Nat) (g : Nat) :
    Option (List Prompt × Nat) :=
  if title = "" ∧ body = "" ∧ notes = "" then some (prompts, g)
  else
    match prompts.find? (fun p => p.id == currentPromptId) with
    | none => none
    | some p =>
      let password := jsOrStr
        (lookupSession session ("folder-" ++ optIdStr folderIdSel))
        (lookupSession session ("prompt-" ++ toString p.id))
      let (pBody, pNotes, g') :=
        if truthyOpt password then
          let pw := password.getD ""
          (encryptJS (.str body) pw g, encryptJS (.str notes) pw (g + 1), g + 2)
        else
          (JVal.str body, JVal.str notes, g)
      let p' := { p with body := pBody, notes := pNotes, title := title,
                         folderId := folderIdSel }
      some (replacePrompt prompts p', g')

/-- The new-prompt branch of `handleSavePrompt` (promptcat.js lines
1807-1828 and the shared tail): a fresh prompt with id `now`
(`Date.now()`).  With a pending lock request (`state.newPromptLockInfo`,
carrying the just-collected password), `isLocked` is set and `body`,
`notes` and `passwordCheck = encrypt(String(id), password)` are encrypted
at creation time; otherwise the content is stored plain and no
`passwordCheck` field exists (`undefined`). -/
def handleSavePromptNew (prompts : List Prompt)
    (newPromptLockInfo : Option String) (now : Nat)
    (title body notes : String) (folderIdSel : Option Nat) (g : Nat) :
    Option (List Prompt × Nat) :=
  if title = "" ∧ body = "" ∧ notes = "" then some (prompts, g)
  else
    match newPromptLockInfo with
    | some pw =>
      let p : Prompt :=
        { id := now, title := title,
          body := encryptJS (.str body) pw g,
          notes := encryptJS (.str notes) pw (g + 1),
          folderId := folderIdSel, isLocked := true,
          passwordCheck := encryptJS (.str (toString now)) pw (g + 2) }
      some (prompts ++ [p], g + 3)
    | none =>
      let p : Prompt :=
        { id := now, title := title, body := .str body, notes := .str notes,
          folderId := folderIdSel, isLocked := false, passwordCheck := .undef }
      some (prompts ++ [p], g)

/-! ## Effective-lock computations of the interaction layer

Each definition below is translated from one site that decides which
entity's lock governs a prompt. -/

/-- `renderPromptDetails` line 935: `folder && folder.isLocked`. -/
def detailsIsLockedByFolder (folders : List Folder) (p : Prompt) : Bool :=
  match lookupFolder folders p with
  | some f => f.isLocked
  | none => false

/-- `renderPromptDetails` line 937:
`isLockedByFolder || isLockedIndividually`. -/
def detailsIsLocked (folders : List Folder) (p : Prompt) : Bool :=
  detailsIsLockedByFolder folders p || p.isLocked

/-- `renderPromptDetails` lines 939-941: the session-cache key of the
effective owner. -/
def detailsKey (folders : List Folder) (p : Prompt) : String :=
  if detailsIsLockedByFolder folders p then
    match lookupFolder folders p with
    | some f => "folder-" ++ toString f.id
    | none => "prompt-" ++ toString p.id
  else
    "prompt-" ++ toString p.id

/-- `renderPromptDetails` line 947 with the validate closure of lines
952-959: the `passwordCheck` that is decrypted to validate the password
challenge (`item = isLockedByFolder ? folder : prompt`). -/
def detailsOwnerPasswordCheck (folders : List Folder) (p : Prompt) : JVal :=
  if detailsIsLockedByFolder folders p then
    match lookupFolder folders p with
    | some f => f.passwordCheck
    | none => p.passwordCheck
  else
    p.passwordCheck

/-- `renderPromptDetails` line 958: the string the decrypted check must
equal, `String(item.id)`. -/
def detailsOwnerCheckString (folders : List Folder) (p : Prompt) : String :=
  if detailsIsLockedByFolder folders p then
    match lookupFolder folders p with
    | some f => toString f.id
    | none => toString p.id
  else
    toString p.id

/-- `renderPromptDetails` line 1006: the individual lock switch is disabled
exactly when the folder lock dominates
(`UI.promptLockSwitch.disabled = isLockedByFolder`). -/
def detailsLockSwitchDisabled (folders : List Folder) (p : Prompt) : Bool :=
  detailsIsLockedByFolder folders p

/-- `handlePromptListClick` lines 2100-2103 (open-for-view on click):
same effective-lock derivation as `renderPromptDetails`. -/
def listClickIsLockedByFolder (folders : List Folder) (p : Prompt) : Bool :=
  match lookupFolder folders p with
  | some f => f.isLocked
  | none => false

/-- `handlePromptListClick` lines 2106-2108: the governing item's
session-cache key, `` `${itemType}-${item.id}` ``. -/
def listClickKey (folders : List Folder) (p : Prompt) : String :=
  if listClickIsLockedByFolder folders p then
    match lookupFolder folders p with
    | some f => "folder-" ++ toString f.id
    | none => "prompt-" ++ toString p.id
  else
    "prompt-" ++ toString p.id

/-- `handlePromptListClick` lines 2106, 2121-2124: the `passwordCheck`
validated before opening (`item.passwordCheck` of the effective owner). -/
def listClickOwnerPasswordCheck (folders : List Folder) (p : Prompt) : JVal :=
  if listClickIsLockedByFolder folders p then
    match lookupFolder folders p with
    | some f => f.passwordCheck
    | none => p.passwordCheck
  else
    p.passwordCheck

/-- Quick-copy, `handlePromptListClick` line 2023:
`(folder && folder.isLocked) || prompt.isLocked`. -/
def quickCopyIsLocked (folders : List Folder) (p : Prompt) : Bool :=
  (match lookupFolder folders p with
   | some f => f.isLocked
   | none => false) || p.isLocked

/-- Quick-copy lines 2032-2033: the string the decrypted check must equal,
`isLocked && folder?.isLocked ? String(folder.id) : String(prompt.id)`. -/
def quickCopyCheckString (folders : List Folder) (p : Prompt) : String :=
  if quickCopyIsLocked folders p &&
      (match lookupFolder folders p with
       | some f => f.isLocked
       | none => false) then
    match lookupFolder folders p with
    | some f => toString f.id
    | none => toString p.id
  else
    toString p.id

/-- Quick-copy lines 2034-2037: the `passwordCheck` the entered password is
verified against. -/
def quickCopyCheckValue (folders : List Folder) (p : Prompt) : JVal :=
  if quickCopyIsLocked folders p &&
      (match lookupFolder folders p with
       | some f => f.isLocked
       | none => false) then
    match lookupFolder folders p with
    | some f => f.passwordCheck
    | none => p.passwordCheck
  else
    p.passwordCheck

/-- `handleDragStart` lines 1489-1493: dragging is prevented when
`prompt.isLocked || (folder && folder.isLocked)`. -/
def dragPrevented (folders : List Folder) (p : Prompt) : Bool :=
  p.isLocked ||
    (match lookupFolder folders p with
     | some f => f.isLocked
     | none => false)

/-- The "locked" sidebar view filter, lines 815-820:
`p.isLocked || state.folders.find(f => f.id === p.folderId)?.isLocked`. -/
def lockedViewIncludes (folders : List Folder) (p : Prompt) : Bool :=
  p.isLocked ||
    (match lookupFolder folders p with
     | some f => f.isLocked
     | none => false)

/-! ## Representation invariants -/

/-- The field is a ciphertext whose key was derived from `pw`. -/
def cipherUnder (v : JVal) (pw : String) : Bool :=
  match v with
  | .cipher c => c.pw == pw
  | _ => false

/-- Shape of a content field of a locked entity as the code actually
produces it: a ciphertext under the owner's password, or the empty string
(which `CryptoService.encrypt` leaves untouched). -/
def fieldOk (v : JVal) (pw : String) : Bool :=
  v == .str "" || cipherUnder v pw

/-- The password a locked entity's `passwordCheck` was created with
(meaningful only when the check is ciphertext-shaped). -/
def checkPw (v : JVal) : String :=
  match v with
  | .cipher c => c.pw
  | _ => ""

/-- A locked folder carries a `passwordCheck` that is a ciphertext of
`String(folder.id)` under a non-empty password. -/
def folderWF (f : Folder) : Bool :=
  !f.isLocked ||
    (match f.passwordCheck with
     | .cipher c => c.payload == toString f.id && !(c.pw == "")
     | _ => false)

/-- Well-formedness of a prompt not governed by a locked folder: if it is
individually locked, its `passwordCheck` is a ciphertext of
`String(prompt.id)` under a non-empty password and both content fields are
empty or encrypted under that same password; otherwise both content fields
are plain strings. -/
def ownWF (p : Prompt) : Bool :=
  if p.isLocked then
    match p.passwordCheck with
    | .cipher c =>
        c.payload == toString p.id && !(c.pw == "") &&
        fieldOk p.body c.pw && fieldOk p.notes c.pw
    | _ => false
  else
    plainStr p.body && plainStr p.notes

/-- Well-formedness of a prompt in context: when its folder is locked, the
prompt's own lock flag is clear (folder lock dominates; the handlers break
down when both are set) and its content fields are empty or encrypted
under the folder's password; otherwise `ownWF`. -/
def promptWF (folders : List Folder) (p : Prompt) : Bool :=
  match lookupFolder folders p with
  | some f =>
    if f.isLocked then
      !p.isLocked && fieldOk p.body (checkPw f.passwordCheck) &&
        fieldOk p.notes (checkPw f.passwordCheck)
    else ownWF p
  | none => ownWF p

/-- Global well-formedness of the in-memory vault collections. -/
def stateWF (folders : List Folder) (prompts : List Prompt) : Bool :=
  folders.all folderWF && prompts.all (promptWF folders)

/-- The representation invariant exactly as the claim states it: content
fields are plain strings when neither the prompt nor its folder is locked,
and ciphertext-shaped objects whenever the prompt or its folder is
locked. -/
def shapeInvB (folders : List Folder) (prompts : List Prompt) : Bool :=
  prompts.all fun p =>
    let locked :=
      (match lookupFolder folders p with
       | some f => f.isLocked
       | none => false) || p.isLocked
    if locked then isCipher p.body && isCipher p.notes
    else plainStr p.body && plainStr p.notes

/-- The amended representation invariant: as claimed, except that a locked
entity's content field may also be the empty string (which
`CryptoService.encrypt` returns unchanged instead of encrypting). -/
def amendedShapeInvB (folders : List Folder) (prompts : List Prompt) : Bool :=
  prompts.all fun p =>
    let locked :=
      (match lookupFolder folders p with
       | some f => f.isLocked
       | none => false) || p.isLocked
    if locked then
      (isCipher p.body || p.body == .str "") &&
      (isCipher p.notes || p.notes == .str "")
    else plainStr p.body && plainStr p.notes

/-- The vault's shared mutable in-memory state: the mirrored `folders` and
`prompts` collections, the session-password cache, and the randomness
seed. -/
structure VaultState where
  folders : List Folder
  prompts : List Prompt
  session : List (String × String)
  gen : Nat

/-- The modelled state-mutating vault operations (the ones the claim's
sources cite): folder lock toggling, the batch move, and saving an
existing prompt. -/
inductive VaultOp where
  | toggleFolderLock (folderToEditId : Nat) (resp : Option String)
  | confirmMove (selected : List Nat) (newFolderId : Option Nat)
      (movePasswordInput : String) (askPass : Nat → Option String)
  | saveExisting (currentPromptId : Nat) (title body notes : String)
      (folderIdSel : Option Nat)

/-- Run one operation against the state (none of the three touches the
session cache; the move and save handlers never touch `folders`). -/
def applyOp (st : VaultState) : VaultOp → Option VaultState
  | .toggleFolderLock fid resp =>
    (handleToggleFolderLock st.folders st.prompts fid resp st.gen).map
      fun r => ⟨r.folders, r.prompts, st.session, r.gen⟩
  | .confirmMove sel dst inp ask =>
    (handleConfirmMove st.folders st.prompts sel dst inp ask st.gen).map
      fun r => ⟨st.folders, r.prompts, st.session, r.gen⟩
  | .saveExisting cid t b n fsel =>
    (handleSavePromptExisting st.prompts st.session cid t b n fsel st.gen).map
      fun r => ⟨st.folders, r.1, st.session, r.2⟩

/-- The password `handleSavePrompt` picks up for an existing prompt:
the session entry under the destination-folder key, else the one under
the prompt's own key (lines 1832-1834). -/
def savePassword (session : List (String × String)) (p : Prompt)
    (fsel : Option Nat) : Option String :=
  jsOrStr (lookupSession session ("folder-" ++ optIdStr fsel))
    (lookupSession session ("prompt-" ++ toString p.id))

/-- Session-cache accuracy for a save: the password `handleSavePrompt`
will pick up (destination-folder key first, else the prompt's own key)
must match the lock state of the effective owner - the true password of
the destination folder when that folder is locked (and the prompt itself
not own-locked), the prompt's own password when the prompt is own-locked,
and no password at all otherwise. -/
def saveSessionOK (folders : List Folder)
    (session : List (String × String)) (p : Prompt)
    (fsel : Option Nat) : Bool :=
  match fsel with
  | some d =>
    match folders.find? (fun f => f.id == d) with
    | some df =>
      if df.isLocked then
        savePassword session p fsel == some (checkPw df.passwordCheck) &&
          !p.isLocked
      else if p.isLocked then
        savePassword session p fsel == some (checkPw p.passwordCheck)
      else
        !(truthyOpt (savePassword session p fsel))
    | none =>
      if p.isLocked then
        savePassword session p fsel == some (checkPw p.passwordCheck)
      else !(truthyOpt (savePassword session p fsel))
  | none =>
    if p.isLocked then
      savePassword session p fsel == some (checkPw p.passwordCheck)
    else !(truthyOpt (savePassword session p fsel))

/-- Operation-specific side conditions under which the amended invariant
is preserved: locking a folder must not capture an individually locked
prompt (the code double-encrypts it and destroys its ciphertext object),
and a save must find an accurate session cache (the code trusts the cache
without checking the owner's lock state).  The move handler needs no
condition - its password checks enforce everything. -/
def opOKB (st : VaultState) : VaultOp → Bool
  | .toggleFolderLock fid _ =>
    match st.folders.find? (fun f => f.id == fid) with
    | some f =>
      f.isLocked ||
        st.prompts.all fun p => !(p.folderId == some f.id) || !p.isLocked
    | none => true
  | .confirmMove _ _ _ _ => true
  | .saveExisting cid _ _ _ fsel =>
    match st.prompts.find? (fun q => q.id == cid) with
    | some p => saveSessionOK st.folders st.session p fsel
    | none => true

/-- The destination pre-check of `handleConfirmMove` fails: decrypting the
destination folder's `passwordCheck` with the entered password returns
(without throwing) something other than `String(folder.id)`. -/
def destPasswordRejected (df : Folder) (inp : String) : Bool :=
  match decryptJS df.passwordCheck inp with
  | some v => !(jvalIsStrEq v (toString df.id))
  | none => false

/-! ## C1 - CipherService round-trip -/

/-- C1: for every string `s`, password `p` and randomness seed, decrypting
`encrypt(s, p)` with the same password `p` yields `s` back - including the
degenerate cases where `encrypt` returned its input unchanged (empty `s`
or `p`), in which `decrypt` also passes the string through unchanged. -/
theorem promptcat_C1_roundtrip (s p : String) (r : Nat) :
    decryptJS (encryptJS (.str s) p r) p = some (.str s) :=
  decrypt_encrypt_roundtrip s p r

/-! ## C2 - wrong-password rejection -/

/-- C2 counterexample: the claim "for every string `s` and distinct
passwords `p₁ ≠ p₂`, `decrypt(encrypt(s, p₁), p₂) == null`" fails at
`s = ""`, `p₁ = "a"`, `p₂ = "b"`: `encrypt` returns the empty string
unchanged (falsy-input guard), and `decrypt` passes the string through, so
the result is `""`, not the `null` sentinel. -/
theorem promptcat_C2_counterexample :
    ("a" : String) ≠ "b" ∧
    decryptJS (encryptJS (.str "") "a" 0) "b" = some (.str "") ∧
    decryptJS (encryptJS (.str "") "a" 0) "b" ≠ some .jnull := by
  refine ⟨by decide, rfl, by decide⟩

/-- C2 (amended): wrong-password rejection holds for non-degenerate
inputs: when `s` is non-empty (so `encrypt` really encrypts) and both
passwords are non-empty (so neither falsy-guard fires), decrypting under a
different password returns the `null` sentinel. -/
theorem promptcat_C2_amended (s p₁ p₂ : String) (r : Nat)
    (hs : s ≠ "") (h₁ : p₁ ≠ "") (h₂ : p₂ ≠ "") (hne : p₁ ≠ p₂) :
    decryptJS (encryptJS (.str s) p₁ r) p₂ = some .jnull :=
  decrypt_encrypt_wrong_pw s p₁ p₂ r hs h₁ h₂ hne

/-- Witness for C2 (amended) at `s = "x"`, `p₁ = "a"`, `p₂ = "b"`. -/
theorem promptcat_C2_amended_witness :
    ("x" : String) ≠ "" ∧ ("a" : String) ≠ "" ∧ ("b" : String) ≠ "" ∧
    ("a" : String) ≠ "b" ∧
    decryptJS (encryptJS (.str "x") "a" 0) "b" = some .jnull :=
  ⟨by decide, by decide, by decide, by decide,
   promptcat_C2_amended "x" "a" "b" 0 (by decide) (by decide) (by decide)
     (by decide)⟩

/-! ## C4 - folder-lock dominance -/

/-- C4: for a prompt `q` whose folder `f` is locked, every modelled site
that resolves the effective lock - opening for view
(`renderPromptDetails`), click-to-open (`handlePromptListClick`),
quick-copy, drag start, the locked-view listing filter, and the lock
toggle switch - treats the state as locked-by-folder: the folder's id
keys the session cache, the folder's `passwordCheck` and `String(f.id)`
are what the password challenge verifies, dragging is prevented, the
prompt is listed as locked, and the individual lock switch is disabled.
All of it is independent of `q.isLocked` (the final clause flips the
flag). -/
theorem promptcat_C4_dominance (folders : List Folder) (q : Prompt)
    (f : Folder) (hf : lookupFolder folders q = some f)
    (hl : f.isLocked = true) :
    detailsIsLockedByFolder folders q = true ∧
    detailsIsLocked folders q = true ∧
    detailsKey folders q = "folder-" ++ toString f.id ∧
    detailsOwnerPasswordCheck folders q = f.passwordCheck ∧
    detailsOwnerCheckString folders q = toString f.id ∧
    detailsLockSwitchDisabled folders q = true ∧
    listClickIsLockedByFolder folders q = true ∧
    listClickKey folders q = "folder-" ++ toString f.id ∧
    listClickOwnerPasswordCheck folders q = f.passwordCheck ∧
    quickCopyIsLocked folders q = true ∧
    quickCopyCheckString folders q = toString f.id ∧
    quickCopyCheckValue folders q = f.passwordCheck ∧
    dragPrevented folders q = true ∧
    lockedViewIncludes folders q = true ∧
    (∀ b : Bool,
      detailsKey folders { q with isLocked := b } = detailsKey folders q ∧
      detailsOwnerPasswordCheck folders { q with isLocked := b } =
        detailsOwnerPasswordCheck folders q ∧
      detailsOwnerCheckString folders { q with isLocked := b } =
        detailsOwnerCheckString folders q ∧
      quickCopyCheckString folders { q with isLocked := b } =
        quickCopyCheckString folders q ∧
      quickCopyCheckValue folders { q with isLocked := b } =
        quickCopyCheckValue folders q ∧
      dragPrevented folders { q with isLocked := b } = true ∧
      lockedViewIncludes folders { q with isLocked := b } = true ∧
      detailsLockSwitchDisabled folders { q with isLocked := b } = true) := by
  have hf' : ∀ b : Bool, lookupFolder folders { q with isLocked := b } = some f := by
    intro b
    simpa [lookupFolder] using hf
  refine ⟨?_, ?_, ?_, ?_, ?_, ?_, ?_, ?_, ?_, ?_, ?_, ?_, ?_, ?_, ?_⟩ <;>
    simp [detailsIsLockedByFolder, detailsIsLocked, detailsKey,
      detailsOwnerPasswordCheck, detailsOwnerCheckString,
      detailsLockSwitchDisabled, listClickIsLockedByFolder, listClickKey,
      listClickOwnerPasswordCheck, quickCopyIsLocked, quickCopyCheckString,
      quickCopyCheckValue, dragPrevented, lockedViewIncludes, hf, hl, hf']

/-- Witness for C4 at a two-folder, one-prompt state in which the prompt's
own `isLocked` is set and its folder is locked. -/
theorem promptcat_C4_dominance_witness :
    lookupFolder [⟨7, "open", false, .jnull⟩,
        ⟨3, "F", true, .cipher ⟨"3", "pw", 0, 0⟩⟩]
      ⟨9, "t", .cipher ⟨"b", "pw", 1, 1⟩, .str "", some 3, true, .jnull⟩ =
      some ⟨3, "F", true, .cipher ⟨"3", "pw", 0, 0⟩⟩ ∧
    detailsKey [⟨7, "open", false, .jnull⟩,
        ⟨3, "F", true, .cipher ⟨"3", "pw", 0, 0⟩⟩]
      ⟨9, "t", .cipher ⟨"b", "pw", 1, 1⟩, .str "", some 3, true, .jnull⟩ =
      "folder-3" ∧
    detailsOwnerPasswordCheck [⟨7, "open", false, .jnull⟩,
        ⟨3, "F", true, .cipher ⟨"3", "pw", 0, 0⟩⟩]
      ⟨9, "t", .cipher ⟨"b", "pw", 1, 1⟩, .str "", some 3, true, .jnull⟩ =
      .cipher ⟨"3", "pw", 0, 0⟩ ∧
    dragPrevented [⟨7, "open", false, .jnull⟩,
        ⟨3, "F", true, .cipher ⟨"3", "pw", 0, 0⟩⟩]
      ⟨9, "t", .cipher ⟨"b", "pw", 1, 1⟩, .str "", some 3, true, .jnull⟩ =
      true := by
  have h := promptcat_C4_dominance
    [⟨7, "open", false, .jnull⟩, ⟨3, "F", true, .cipher ⟨"3", "pw", 0, 0⟩⟩]
    ⟨9, "t", .cipher ⟨"b", "pw", 1, 1⟩, .str "", some 3, true, .jnull⟩
    ⟨3, "F", true, .cipher ⟨"3", "pw", 0, 0⟩⟩ (by decide) (by decide)
  exact ⟨by decide, h.2.2.1, h.2.2.2.1, h.2.2.2.2.2.2.2.2.2.2.2.2.1⟩

/-! ## C10 - destination-password pre-check atomicity -/

/-- C10: in a batch move into a locked destination folder, the destination
password is verified against the destination's `passwordCheck` before the
per-prompt loop; when the check fails, the handler returns with the prompt
list unchanged, nothing written to the store, no prompt skipped or
processed, and the destination-rejected alert surfaced. -/
theorem promptcat_C10_dest_precheck (folders : List Folder)
    (prompts : List Prompt) (selected : List Nat) (d : Nat) (df : Folder)
    (inp : String) (askPass : Nat → Option String) (g : Nat)
    (hfind : folders.find? (fun f => f.id == d) = some df)
    (hlock : df.isLocked = true)
    (hrej : destPasswordRejected df inp = true) :
    handleConfirmMove folders prompts selected (some d) inp askPass g =
      some ⟨prompts, g, [], false, true⟩ := by
  unfold handleConfirmMove
  simp only [hfind, hlock, if_true]
  unfold destPasswordRejected at hrej
  cases h : decryptJS df.passwordCheck inp with
  | none => rw [h] at hrej; exact absurd hrej (by simp)
  | some v =>
    rw [h] at hrej
    simp only [Bool.not_eq_true'] at hrej
    simp [hrej]

/-- Witness for C10: destination folder 4 locked under `"a"`, wrong input
`"b"`; the single selected prompt is untouched and nothing is written. -/
theorem promptcat_C10_dest_precheck_witness :
    ([⟨4, "D", true, .cipher ⟨"4", "a", 0, 0⟩⟩] : List Folder).find?
        (fun f => f.id == 4) = some ⟨4, "D", true, .cipher ⟨"4", "a", 0, 0⟩⟩ ∧
    destPasswordRejected ⟨4, "D", true, .cipher ⟨"4", "a", 0, 0⟩⟩ "b" = true ∧
    handleConfirmMove [⟨4, "D", true, .cipher ⟨"4", "a", 0, 0⟩⟩]
        [⟨9, "t", .str "x", .str "", none, false, .jnull⟩] [9] (some 4) "b"
        (fun _ => none) 0 =
      some ⟨[⟨9, "t", .str "x", .str "", none, false, .jnull⟩], 0, [],
        false, true⟩ :=
  ⟨by decide, by decide,
   promptcat_C10_dest_precheck [⟨4, "D", true, .cipher ⟨"4", "a", 0, 0⟩⟩]
     [⟨9, "t", .str "x", .str "", none, false, .jnull⟩] [9] 4
     ⟨4, "D", true, .cipher ⟨"4", "a", 0, 0⟩⟩ "b" (fun _ => none) 0
     (by decide) (by decide) (by decide)⟩

/-! ## C5 - the lock-state representation invariant -/

/-- C5 counterexample: the invariant as claimed ("body and notes are
Ciphertext-shaped whenever the prompt or its folder is locked") is not
preserved.  Start from an invariant-satisfying state - unlocked folder 1
containing prompt 2 with plain body `"x"` and empty notes `""` - and lock
the folder with password `"pw"`: `CryptoService.encrypt` returns the empty
notes string unchanged (falsy-input guard), so the locked prompt's `notes`
is still the plain string `""` and the claimed invariant is false in the
resulting state. -/
theorem promptcat_C5_counterexample :
    shapeInvB [⟨1, "F", false, .jnull⟩]
        [⟨2, "t", .str "x", .str "", some 1, false, .jnull⟩] = true ∧
    (handleToggleFolderLock [⟨1, "F", false, .jnull⟩]
        [⟨2, "t", .str "x", .str "", some 1, false, .jnull⟩] 1 (some "pw")
        0).map (fun st => shapeInvB st.folders st.prompts) = some false := by
  exact ⟨by decide, by decide⟩

/-! ## C8 - sentinel failure values and the bulk loops -/

/-- C8 counterexample: the folder-unlock re-encryption loop does NOT skip
an item whose field fails to decrypt.  Folder 1 is locked under `"a"`
(its `passwordCheck` verifies), but the contained prompt's body is a
ciphertext under a different password `"b"`.  Unlocking with the correct
folder password `"a"` passes the check, then overwrites the body with the
decryption result - the `null` sentinel - instead of leaving the stored
field unchanged: the prompt's body changes from a ciphertext to `null`. -/
theorem promptcat_C8_counterexample :
    (handleToggleFolderLock [⟨1, "F", true, .cipher ⟨"1", "a", 0, 0⟩⟩]
        [⟨2, "t", .cipher ⟨"s", "b", 0, 0⟩, .str "", some 1, false, .jnull⟩]
        1 (some "a") 0).map (fun st => st.prompts.map Prompt.body) =
      some [.jnull] ∧
    (JVal.cipher ⟨"s", "b", 0, 0⟩ : JVal) ≠ .jnull := by
  exact ⟨by decide, by decide⟩

/-! ## C9 - the save encryption condition -/

/-- C9 counterexample: saving an existing prompt re-encrypts even when the
effective owner has no password.  Prompt 2 sits in folder 1 which is NOT
locked (so the effective owner is the prompt itself, which is not locked
and has no remembered password), yet a stale session entry under
`"folder-1"` remains; the claim then requires the content to be persisted
as plaintext, but the handler picks up the session entry without checking
the folder's lock state and encrypts the body under `"pw"`. -/
theorem promptcat_C9_counterexample :
    (handleSavePromptExisting
        [⟨2, "t", .str "old", .str "", some 1, false, .undef⟩]
        [("folder-1", "pw")] 2 "t" "b" "" (some 1) 0).map
      (fun r => r.1.map Prompt.body) = some [.cipher ⟨"b", "pw", 0, 0⟩] ∧
    isCipher (JVal.cipher ⟨"b", "pw", 0, 0⟩) = true := by
  exact ⟨by decide, by decide⟩

/-! ## Lemmas about the folder lock/unlock loops -/

/-- After mutating the found folder in place, looking it up again by the
same id yields the mutated record. -/
theorem find?_replaceFolder (folders : List Folder) (f f' : Folder)
    (fid : Nat) (hfind : folders.find? (fun x => x.id == fid) = some f)
    (hid : f'.id = f.id) :
    (replaceFolder folders f').find? (fun x => x.id == fid) = some f' := by
  have hfid : f.id = fid := by
    have := List.find?_some hfind
    simpa using this
  induction folders with
  | nil => simp at hfind
  | cons a l ih =>
    by_cases ha : a.id = fid
    · rw [List.find?_cons_of_pos l (by simpa using ha)] at hfind
      have haf : a = f := by simpa using hfind
      have h1 : (if a.id == f'.id then f' else a) = f' := by
        simp [haf, hid, hfid]
      simp only [replaceFolder, List.map_cons, h1]
      exact List.find?_cons_of_pos _ (by simp [hid, hfid])
    · rw [List.find?_cons_of_neg l (by simpa using ha)] at hfind
      have ha' : ¬(a.id = f'.id) := by
        rw [hid, hfid]; exact ha
      have h1 : (if a.id == f'.id then f' else a) = a := by simp [ha']
      simp only [replaceFolder, List.map_cons, h1]
      rw [List.find?_cons_of_neg _ (by simpa using ha)]
      exact ih hfind

/-- A folder lookup by a different id is unaffected by the in-place
mutation. -/
theorem find?_replaceFolder_ne (folders : List Folder) (f' : Folder)
    (fid : Nat) (hne : f'.id ≠ fid) :
    (replaceFolder folders f').find? (fun x => x.id == fid) =
      folders.find? (fun x => x.id == fid) := by
  induction folders with
  | nil => simp [replaceFolder]
  | cons a l ih =>
    by_cases ha : a.id = f'.id
    · have hb : (a.id == f'.id) = true := by simpa using ha
      have hafid : ¬(a.id = fid) := fun h => hne (ha ▸ h)
      simp only [replaceFolder, List.map_cons, hb, if_true]
      rw [List.find?_cons_of_neg _ (by simpa using hne),
        List.find?_cons_of_neg _ (by simpa using hafid)]
      exact ih
    · have hb : (a.id == f'.id) = false := by simpa using ha
      simp only [replaceFolder, List.map_cons, hb, Bool.false_eq_true,
        if_false]
      by_cases hafid : a.id = fid
      · rw [List.find?_cons_of_pos _ (by simpa using hafid),
          List.find?_cons_of_pos _ (by simpa using hafid)]
      · rw [List.find?_cons_of_neg _ (by simpa using hafid),
          List.find?_cons_of_neg _ (by simpa using hafid)]
        exact ih

/-- Elementwise description of the lock loop: contained prompts get both
fields passed through `encrypt` (with consecutive randomness seeds),
others are untouched. -/
theorem lockFolderPrompts_forall₂ (fid : Nat) (pw : String) :
    ∀ (l : List Prompt) (g : Nat),
      List.Forall₂ (fun p p' =>
        (p.folderId = some fid →
          ∃ r, p' = { p with body := encryptJS p.body pw r,
                             notes := encryptJS p.notes pw (r + 1) }) ∧
        (p.folderId ≠ some fid → p' = p))
        l (lockFolderPrompts fid pw l g).1 := by
  intro l
  induction l with
  | nil => intro g; simp [lockFolderPrompts]
  | cons p rest ih =>
    intro g
    by_cases hp : p.folderId = some fid
    · have hp' : (p.folderId == some fid) = true := by simpa using hp
      simp only [lockFolderPrompts, hp', if_true]
      exact List.Forall₂.cons ⟨fun _ => ⟨g, rfl⟩, fun h => absurd hp h⟩
        (ih (g + 2))
    · have hp' : (p.folderId == some fid) = false := by simpa using hp
      simp only [lockFolderPrompts, hp', Bool.false_eq_true, if_false]
      exact List.Forall₂.cons ⟨fun h => absurd h hp, fun _ => rfl⟩ (ih g)

/-- Unlocking immediately after locking restores the original prompt list,
provided the contained prompts had plain-string content. -/
theorem unlock_lock_roundtrip (fid : Nat) (pw : String) :
    ∀ (l : List Prompt) (g : Nat),
      (∀ p ∈ l, p.folderId = some fid →
        plainStr p.body = true ∧ plainStr p.notes = true) →
      unlockFolderPrompts fid pw (lockFolderPrompts fid pw l g).1 = some l := by
  intro l
  induction l with
  | nil => intro g _; simp [lockFolderPrompts, unlockFolderPrompts]
  | cons p rest ih =>
    intro g hl
    have hrest : ∀ q ∈ rest, q.folderId = some fid →
        plainStr q.body = true ∧ plainStr q.notes = true :=
      fun q hq => hl q (List.mem_cons_of_mem p hq)
    by_cases hp : p.folderId = some fid
    · obtain ⟨hb, hn⟩ := hl p (List.mem_cons_self p rest) hp
      obtain ⟨sb, hsb⟩ : ∃ s, p.body = .str s := by
        cases hpb : p.body <;> simp [hpb, plainStr] at hb ⊢
      obtain ⟨sn, hsn⟩ : ∃ s, p.notes = .str s := by
        cases hpn : p.notes <;> simp [hpn, plainStr] at hn ⊢
      have hp' : (p.folderId == some fid) = true := by simpa using hp
      simp only [lockFolderPrompts, hp', if_true]
      simp only [unlockFolderPrompts, ih (g + 2) hrest, Option.bind_eq_bind,
        Option.some_bind, hp', if_true]
      rw [hsb, hsn]
      simp only [decrypt_encrypt_roundtrip, Option.some_bind]
      cases p
      simp_all
    · have hp' : (p.folderId == some fid) = false := by simpa using hp
      simp only [lockFolderPrompts, hp', Bool.false_eq_true, if_false]
      simp only [unlockFolderPrompts, ih g hrest, Option.bind_eq_bind,
        Option.some_bind, hp', Bool.false_eq_true, if_false]

/-! ## C3 - folder lock/unlock transition -/

/-- C3: locking an unlocked folder with a new (non-empty) password sets
`isLocked`, stamps `passwordCheck = encrypt(String(folder.id), password)`,
and passes every contained prompt's `body`/`notes` through `encrypt` under
that password, leaving other prompts alone; unlocking the result with the
correct password restores every contained prompt (whose content was
plaintext, per the data model) exactly and clears `passwordCheck` to
`null`; attempting to unlock with a wrong non-empty password returns with
the incorrect-password alert surfaced and folders and prompts completely
unchanged. -/
theorem promptcat_C3_folder_lock_unlock
    (folders : List Folder) (prompts : List Prompt) (f : Folder) (fid : Nat)
    (pw : String) (g : Nat)
    (hfind : folders.find? (fun x => x.id == fid) = some f)
    (hunlocked : f.isLocked = false)
    (hpw : pw ≠ "")
    (hplain : ∀ p ∈ prompts, p.folderId = some f.id →
      plainStr p.body = true ∧ plainStr p.notes = true) :
    ∃ st₁, handleToggleFolderLock folders prompts fid (some pw) g = some st₁ ∧
      st₁.alerted = false ∧
      st₁.folders.find? (fun x => x.id == fid) =
        some { f with isLocked := true,
                      passwordCheck := encryptJS (.str (toString f.id)) pw g } ∧
      List.Forall₂ (fun p p' =>
        (p.folderId = some f.id →
          ∃ r, p' = { p with body := encryptJS p.body pw r,
                             notes := encryptJS p.notes pw (r + 1) }) ∧
        (p.folderId ≠ some f.id → p' = p)) prompts st₁.prompts ∧
      (∃ st₂, handleToggleFolderLock st₁.folders st₁.prompts fid (some pw)
          st₁.gen = some st₂ ∧
        st₂.prompts = prompts ∧ st₂.alerted = false ∧
        st₂.folders.find? (fun x => x.id == fid) =
          some { f with isLocked := false, passwordCheck := .jnull }) ∧
      (∀ pw', pw' ≠ "" → pw' ≠ pw →
        handleToggleFolderLock st₁.folders st₁.prompts fid (some pw')
          st₁.gen = some ⟨st₁.folders, st₁.prompts, st₁.gen, true⟩) := by
  have hids : toString f.id ≠ "" := natToString_ne_empty f.id
  have hpc : encryptJS (.str (toString f.id)) pw g =
      .cipher ⟨toString f.id, pw, g, g⟩ := by
    simp [encryptJS, hids, hpw]
  refine ⟨⟨replaceFolder folders
      { f with isLocked := true,
               passwordCheck := encryptJS (.str (toString f.id)) pw g },
      (lockFolderPrompts f.id pw prompts (g + 1)).1,
      (lockFolderPrompts f.id pw prompts (g + 1)).2, false⟩, ?_, rfl, ?_, ?_,
      ?_, ?_⟩
  · simp only [handleToggleFolderLock, hfind, hunlocked, Bool.false_eq_true,
      if_false, if_neg hpw]
  · exact find?_replaceFolder folders f _ fid hfind rfl
  · exact lockFolderPrompts_forall₂ f.id pw prompts (g + 1)
  · have hfind2 : (replaceFolder folders
        { f with isLocked := true,
                 passwordCheck := encryptJS (.str (toString f.id)) pw g }).find?
        (fun x => x.id == fid) =
        some { f with isLocked := true,
                      passwordCheck := encryptJS (.str (toString f.id)) pw g } :=
      find?_replaceFolder folders f _ fid hfind rfl
    refine ⟨⟨replaceFolder (replaceFolder folders
        { f with isLocked := true,
                 passwordCheck := encryptJS (.str (toString f.id)) pw g })
        { f with isLocked := false, passwordCheck := .jnull }, prompts,
        (lockFolderPrompts f.id pw prompts (g + 1)).2, false⟩, ?_, rfl, rfl, ?_⟩
    · simp only [handleToggleFolderLock, hfind2, if_neg hpw,
        decrypt_encrypt_roundtrip, jvalIsStrEq, beq_self_eq_true, if_true,
        unlock_lock_roundtrip f.id pw prompts (g + 1) hplain]
    · exact find?_replaceFolder _
        { f with isLocked := true,
                 passwordCheck := encryptJS (.str (toString f.id)) pw g }
        _ fid hfind2 rfl
  · intro pw' hpw' hne
    have hfind2 : (replaceFolder folders
        { f with isLocked := true,
                 passwordCheck := encryptJS (.str (toString f.id)) pw g }).find?
        (fun x => x.id == fid) =
        some { f with isLocked := true,
                      passwordCheck := encryptJS (.str (toString f.id)) pw g } :=
      find?_replaceFolder folders f _ fid hfind rfl
    have hdec : decryptJS (encryptJS (.str (toString f.id)) pw g) pw' =
        some .jnull := by
      rw [hpc]
      simp [decryptJS, hpw', Ne.symm hne]
    simp [handleToggleFolderLock, hfind2, if_neg hpw', hdec, jvalIsStrEq]

/-- Witness for C3 at the spec's scenario: folder `F = 1` (unlocked),
prompt `P = 2` with body `"secret"`, lock with `"pw1"` then unlock with
`"pw1"`: the prompt is restored exactly and the folder ends unlocked with
`passwordCheck` cleared to `null`. -/
theorem promptcat_C3_witness :
    ∃ st₁, handleToggleFolderLock [⟨1, "F", false, .jnull⟩]
        [⟨2, "P", .str "secret", .str "", some 1, false, .undef⟩] 1
        (some "pw1") 0 = some st₁ ∧
      ∃ st₂, handleToggleFolderLock st₁.folders st₁.prompts 1 (some "pw1")
          st₁.gen = some st₂ ∧
        st₂.prompts = [⟨2, "P", .str "secret", .str "", some 1, false,
          .undef⟩] ∧
        st₂.folders.find? (fun x => x.id == 1) =
          some ⟨1, "F", false, .jnull⟩ := by
  obtain ⟨st₁, h1, -, -, -, ⟨st₂, h2, h3, -, h4⟩, -⟩ :=
    promptcat_C3_folder_lock_unlock [⟨1, "F", false, .jnull⟩]
      [⟨2, "P", .str "secret", .str "", some 1, false, .undef⟩]
      ⟨1, "F", false, .jnull⟩ 1 "pw1" 0 (by decide) rfl (by decide)
      (by decide)
  exact ⟨st₁, h1, st₂, h2, h3, h4⟩

/-! ## Lemmas about the move loop -/

/-- The prompt's own password challenge of the move loop fails: the answer
is withheld (cancel / empty) or decrypting the prompt's `passwordCheck`
with it returns (without throwing) something other than
`String(prompt.id)`. -/
def ownRejectsB (askPass : Nat → Option String) (p : Prompt) : Bool :=
  p.isLocked &&
    (match askPass p.id with
     | none => true
     | some s =>
       s == "" ||
       (match decryptJS p.passwordCheck s with
        | some v => !(jvalIsStrEq v (toString p.id))
        | none => false))

/-- The source-password challenge for a prompt in the move loop fails: the
prompt's effective owner is locked and the supplied answer is withheld or
wrong (the `continue`-with-alert paths of `handleConfirmMove`). -/
def sourceRejectsB (folders : List Folder) (askPass : Nat → Option String)
    (p : Prompt) : Bool :=
  match lookupFolder folders p with
  | some f =>
    if f.isLocked then
      match askPass p.id with
      | none => true
      | some s =>
        s == "" ||
        (match decryptJS f.passwordCheck s with
         | some v => !(jvalIsStrEq v (toString f.id))
         | none => false)
    else
      ownRejectsB askPass p
  | none => ownRejectsB askPass p

/-- The prompt's effective owner is not locked (so the move loop needs no
source password for it). -/
def ownerUnlockedB (folders : List Folder) (p : Prompt) : Bool :=
  (match lookupFolder folders p with
   | some f => !f.isLocked
   | none => true) && !p.isLocked

/-- The move's destination requires no password: "No Folder", a dangling
id, or an unlocked folder. -/
def destUnlockedB (folders : List Folder) (dst : Option Nat) : Bool :=
  match dst with
  | none => true
  | some d =>
    match folders.find? (fun f => f.id == d) with
    | some df => !df.isLocked
    | none => true

/-- When the challenge fails (answer withheld, empty, or failing the
verification), the ask-and-verify block skips the prompt unchanged. -/
theorem moveAskBranch_skip (dst : Option Nat) (dp : Option String)
    (ask : Option String) (pc : JVal) (idStr : String) (q : Prompt) (g : Nat)
    (hrej : (match ask with
      | none => true
      | some s =>
        s == "" ||
        (match decryptJS pc s with
         | some v => !(jvalIsStrEq v idStr)
         | none => false)) = true) :
    moveAskBranch dst dp ask pc idStr q g = some (q, g, true) := by
  cases ask with
  | none => rfl
  | some s =>
    simp only [] at hrej
    by_cases hs : s = ""
    · simp only [moveAskBranch, hs, if_true]
    · simp only [moveAskBranch, if_neg hs]
      simp only [Bool.or_eq_true, beq_iff_eq, hs, false_or] at hrej
      cases hdec : decryptJS pc s with
      | none => rw [hdec] at hrej; simp at hrej
      | some v =>
        rw [hdec] at hrej
        simp only [Bool.not_eq_eq_eq_not, Bool.not_true] at hrej
        simp only [Option.bind_eq_bind, hdec, Option.some_bind, hrej,
          Bool.false_eq_true, if_false]

/-- A selected prompt whose source-password challenge fails is skipped:
the step returns it completely unchanged, consumes no randomness, and
reports the skip - for any destination password. -/
theorem moveStep_skip (folders : List Folder) (selected : List Nat)
    (dst : Option Nat) (dp : Option String) (askPass : Nat → Option String)
    (q : Prompt) (hsel : q.id ∈ selected)
    (hrej : sourceRejectsB folders askPass q = true) :
    ∀ g, moveStep folders selected dst dp askPass q g = some (q, g, true) := by
  intro g
  unfold moveStep
  rw [if_pos hsel]
  unfold sourceRejectsB at hrej
  cases hlf : lookupFolder folders q with
  | some f =>
    simp only [hlf] at hrej ⊢
    cases hfl : f.isLocked with
    | true =>
      simp only [hfl, if_true] at hrej ⊢
      exact moveAskBranch_skip dst dp (askPass q.id) f.passwordCheck
        (toString f.id) q g hrej
    | false =>
      simp only [hfl, Bool.false_eq_true, if_false] at hrej ⊢
      unfold ownRejectsB at hrej
      obtain ⟨hlock, hrest⟩ := Bool.and_eq_true_iff.mp hrej
      simp only [hlock, if_true]
      exact moveAskBranch_skip dst dp (askPass q.id) q.passwordCheck
        (toString q.id) q g hrest
  | none =>
    simp only [hlf] at hrej ⊢
    unfold ownRejectsB at hrej
    obtain ⟨hlock, hrest⟩ := Bool.and_eq_true_iff.mp hrej
    simp only [hlock, if_true]
    exact moveAskBranch_skip dst dp (askPass q.id) q.passwordCheck
      (toString q.id) q g hrest

/-- A prompt outside the selection is not part of the batch and is left
untouched by the step. -/
theorem moveStep_not_selected (folders : List Folder) (selected : List Nat)
    (dst : Option Nat) (dp : Option String) (askPass : Nat → Option String)
    (p : Prompt) (g : Nat) (hsel : p.id ∉ selected) :
    moveStep folders selected dst dp askPass p g = some (p, g, false) := by
  unfold moveStep
  rw [if_neg hsel]

/-- A selected prompt whose effective owner is not locked, moved with no
destination password: the step clears the own lock and `passwordCheck`,
adopts the destination folder id, and keeps the content as stored. -/
theorem moveStep_plain (folders : List Folder) (selected : List Nat)
    (dst : Option Nat) (askPass : Nat → Option String) (p : Prompt) (g : Nat)
    (hsel : p.id ∈ selected) (hown : ownerUnlockedB folders p = true) :
    moveStep folders selected dst none askPass p g =
      some ({ p with isLocked := false, passwordCheck := .jnull,
                     folderId := dst }, g, false) := by
  unfold moveStep
  rw [if_pos hsel]
  unfold ownerUnlockedB at hown
  obtain ⟨hf, hlock⟩ := Bool.and_eq_true_iff.mp hown
  have hlock' : p.isLocked = false := by simpa using hlock
  cases hlf : lookupFolder folders p with
  | some f =>
    rw [hlf] at hf
    have hfl : f.isLocked = false := by simpa using hf
    simp [hlf, hfl, hlock', moveFinish, truthyOpt]
  | none =>
    simp [hlf, hlock', moveFinish, truthyOpt]

/-- Elementwise description of the move loop: every output prompt is the
result of `moveStep` on the corresponding input prompt (at some seed). -/
theorem moveLoop_forall₂ (folders : List Folder) (selected : List Nat)
    (dst : Option Nat) (dp : Option String) (askPass : Nat → Option String) :
    ∀ (l : List Prompt) (g : Nat) (l' : List Prompt) (g' : Nat)
      (sks : List Nat),
      moveLoop folders selected dst dp askPass l g = some (l', g', sks) →
      List.Forall₂ (fun p p' => ∃ ga gb sk,
        moveStep folders selected dst dp askPass p ga = some (p', gb, sk))
        l l' := by
  intro l
  induction l with
  | nil =>
    intro g l' g' sks h
    simp only [moveLoop, Option.some.injEq, Prod.mk.injEq] at h
    obtain ⟨h1, -, -⟩ := h
    subst h1
    exact List.Forall₂.nil
  | cons p rest ih =>
    intro g l' g' sks h
    unfold moveLoop at h
    cases h1 : moveStep folders selected dst dp askPass p g with
    | none => rw [h1] at h; simp at h
    | some trip =>
      obtain ⟨p', g1, sk⟩ := trip
      rw [h1] at h
      simp only [Option.bind_eq_bind, Option.some_bind] at h
      cases h2 : moveLoop folders selected dst dp askPass rest g1 with
      | none => rw [h2] at h; simp at h
      | some trip2 =>
        obtain ⟨rest', g2, sks2⟩ := trip2
        rw [h2] at h
        simp only [Option.some_bind, Option.some.injEq, Prod.mk.injEq] at h
        obtain ⟨hl', hg', hsks⟩ := h
        subst hl'
        exact List.Forall₂.cons ⟨g, g1, sk, h1⟩ (ih g1 rest' g2 sks2 h2)

/-- A prompt that every seed maps to a skip is reported in the loop's
skipped list. -/
theorem moveLoop_skip_mem (folders : List Folder) (selected : List Nat)
    (dst : Option Nat) (dp : Option String) (askPass : Nat → Option String)
    (q : Prompt)
    (hstep : ∀ g, moveStep folders selected dst dp askPass q g =
      some (q, g, true)) :
    ∀ (l : List Prompt) (g : Nat) (l' : List Prompt) (g' : Nat)
      (sks : List Nat), q ∈ l →
      moveLoop folders selected dst dp askPass l g = some (l', g', sks) →
      q.id ∈ sks := by
  intro l
  induction l with
  | nil => intro g l' g' sks hq; simp at hq
  | cons p rest ih =>
    intro g l' g' sks hq h
    unfold moveLoop at h
    cases h1 : moveStep folders selected dst dp askPass p g with
    | none => rw [h1] at h; simp at h
    | some trip =>
      obtain ⟨p', g1, sk⟩ := trip
      rw [h1] at h
      simp only [Option.bind_eq_bind, Option.some_bind] at h
      cases h2 : moveLoop folders selected dst dp askPass rest g1 with
      | none => rw [h2] at h; simp at h
      | some trip2 =>
        obtain ⟨rest', g2, sks2⟩ := trip2
        rw [h2] at h
        simp only [Option.some_bind, Option.some.injEq, Prod.mk.injEq] at h
        obtain ⟨-, -, hsks⟩ := h
        subst hsks
        rcases List.mem_cons.mp hq with rfl | hq'
        · rw [hstep g] at h1
          injection h1 with h1'
          simp only [Prod.mk.injEq] at h1'
          obtain ⟨-, -, hsk⟩ := h1'
          rw [← hsk]
          exact List.mem_cons_self _ _
        · have hmem := ih g1 rest' g2 sks2 hq' h2
          cases sk
          · simpa using hmem
          · exact List.mem_cons_of_mem _ hmem

/-- A `Forall₂` relation yields, for every member of the left list, a
related member of the right list. -/
theorem forall₂_exists_of_mem {α β : Type _} {R : α → β → Prop} :
    ∀ {l : List α} {l' : List β}, List.Forall₂ R l l' → ∀ {a : α}, a ∈ l →
      ∃ b, b ∈ l' ∧ R a b := by
  intro l l' h
  induction h with
  | nil => intro a ha; simp at ha
  | @cons x y xs ys hr hrest ih =>
    intro a ha
    rcases List.mem_cons.mp ha with rfl | ha'
    · exact ⟨y, List.mem_cons_self _ _, hr⟩
    · obtain ⟨b, hb, hrb⟩ := ih ha'
      exact ⟨b, List.mem_cons_of_mem _ hb, hrb⟩

/-- When the destination requires no password, `handleConfirmMove` runs
its loop with no destination password. -/
theorem handleConfirmMove_destUnlocked (folders : List Folder)
    (prompts : List Prompt) (selected : List Nat) (dst : Option Nat)
    (inp : String) (askPass : Nat → Option String) (g : Nat)
    (hdest : destUnlockedB folders dst = true) :
    handleConfirmMove folders prompts selected dst inp askPass g =
      moveRun folders prompts selected dst none askPass g := by
  unfold handleConfirmMove
  unfold destUnlockedB at hdest
  cases dst with
  | none => rfl
  | some d =>
    cases hfind : folders.find? (fun f => f.id == d) with
    | none => simp only [hfind]
    | some df =>
      simp only [hfind] at hdest
      have hdf : df.isLocked = false := by simpa using hdest
      simp only [hfind, hdf, Bool.false_eq_true, if_false]

/-! ## C7 - per-item failure isolation in a batch move -/

/-- C7: in a batch move (to a password-free destination), a selected
prompt `q` whose effective owner is locked and whose source-password
challenge fails (withheld, empty or wrong) is skipped: the handler still
completes and writes the batch, reports exactly `q`'s id among the
skipped items, leaves `q` (all fields) unchanged at its position, leaves
unselected prompts unchanged, and still processes every other selected
prompt with an unlocked owner (own lock cleared, `passwordCheck` cleared,
destination folder adopted). -/
theorem promptcat_C7_skip_isolation (folders : List Folder)
    (prompts : List Prompt) (selected : List Nat) (dst : Option Nat)
    (inp : String) (askPass : Nat → Option String) (g : Nat) (q : Prompt)
    (hq : q ∈ prompts) (hsel : q.id ∈ selected)
    (hrej : sourceRejectsB folders askPass q = true)
    (hdest : destUnlockedB folders dst = true) :
    ∀ res, handleConfirmMove folders prompts selected dst inp askPass g =
        some res →
      res.wrote = true ∧ res.destRejected = false ∧ q.id ∈ res.skipped ∧
      List.Forall₂ (fun p p' =>
        (p = q → p' = p) ∧
        (p.id ∉ selected → p' = p) ∧
        (p.id ∈ selected → ownerUnlockedB folders p = true →
          p' = { p with isLocked := false, passwordCheck := .jnull,
                        folderId := dst })) prompts res.prompts := by
  intro res hres
  rw [handleConfirmMove_destUnlocked folders prompts selected dst inp askPass
    g hdest] at hres
  unfold moveRun at hres
  cases hloop : moveLoop folders selected dst none askPass prompts g with
  | none => rw [hloop] at hres; simp at hres
  | some trip =>
    obtain ⟨ps', g', sks⟩ := trip
    rw [hloop] at hres
    simp only [Option.some.injEq] at hres
    subst hres
    refine ⟨rfl, rfl, ?_, ?_⟩
    · exact moveLoop_skip_mem folders selected dst none askPass q
        (moveStep_skip folders selected dst none askPass q hsel hrej)
        prompts g ps' g' sks hq hloop
    · have hall := moveLoop_forall₂ folders selected dst none askPass
        prompts g ps' g' sks hloop
      refine List.Forall₂.imp ?_ hall
      rintro p p' ⟨ga, gb, sk, hstep⟩
      refine ⟨?_, ?_, ?_⟩
      · rintro rfl
        rw [moveStep_skip folders selected dst none askPass p hsel hrej ga]
          at hstep
        injection hstep with h'
        simp only [Prod.mk.injEq] at h'
        exact h'.1.symm
      · intro hnot
        rw [moveStep_not_selected folders selected dst none askPass p ga
          hnot] at hstep
        injection hstep with h'
        simp only [Prod.mk.injEq] at h'
        exact h'.1.symm
      · intro hin hown
        rw [moveStep_plain folders selected dst askPass p ga hin hown]
          at hstep
        injection hstep with h'
        simp only [Prod.mk.injEq] at h'
        exact h'.1.symm

/-- Witness for C7: folder 1 locked under `"a"` holds prompt 2; a batch
move of prompts 2 and 3 to "No Folder" is given the wrong source password
`"bad"` for prompt 2.  Prompt 2 is skipped and reported, prompt 3 is still
processed. -/
theorem promptcat_C7_witness :
    sourceRejectsB [⟨1, "F", true, .cipher ⟨"1", "a", 0, 0⟩⟩]
      (fun i => if i == 2 then some "bad" else none)
      ⟨2, "t", .cipher ⟨"s", "a", 1, 1⟩, .str "", some 1, false, .jnull⟩ =
      true ∧
    handleConfirmMove [⟨1, "F", true, .cipher ⟨"1", "a", 0, 0⟩⟩]
      [⟨2, "t", .cipher ⟨"s", "a", 1, 1⟩, .str "", some 1, false, .jnull⟩,
       ⟨3, "u", .str "y", .str "", none, false, .jnull⟩] [2, 3] none ""
      (fun i => if i == 2 then some "bad" else none) 0 =
      some ⟨[⟨2, "t", .cipher ⟨"s", "a", 1, 1⟩, .str "", some 1, false,
        .jnull⟩, ⟨3, "u", .str "y", .str "", none, false, .jnull⟩], 0, [2],
        true, false⟩ ∧
    ((⟨[⟨2, "t", .cipher ⟨"s", "a", 1, 1⟩, .str "", some 1, false, .jnull⟩,
        ⟨3, "u", .str "y", .str "", none, false, .jnull⟩], 0, [2], true,
        false⟩ : MoveResult).wrote = true ∧
     (⟨[⟨2, "t", .cipher ⟨"s", "a", 1, 1⟩, .str "", some 1, false, .jnull⟩,
        ⟨3, "u", .str "y", .str "", none, false, .jnull⟩], 0, [2], true,
        false⟩ : MoveResult).destRejected = false ∧
     (⟨2, "t", .cipher ⟨"s", "a", 1, 1⟩, .str "", some 1, false,
        .jnull⟩ : Prompt).id ∈
       (⟨[⟨2, "t", .cipher ⟨"s", "a", 1, 1⟩, .str "", some 1, false,
         .jnull⟩, ⟨3, "u", .str "y", .str "", none, false, .jnull⟩], 0, [2],
         true, false⟩ : MoveResult).skipped ∧
     List.Forall₂ (fun p p' =>
       (p = ⟨2, "t", .cipher ⟨"s", "a", 1, 1⟩, .str "", some 1, false,
         .jnull⟩ → p' = p) ∧
       (p.id ∉ ([2, 3] : List Nat) → p' = p) ∧
       (p.id ∈ ([2, 3] : List Nat) →
         ownerUnlockedB [⟨1, "F", true, .cipher ⟨"1", "a", 0, 0⟩⟩] p =
           true →
         p' = { p with isLocked := false, passwordCheck := .jnull,
                       folderId := none }))
       [⟨2, "t", .cipher ⟨"s", "a", 1, 1⟩, .str "", some 1, false, .jnull⟩,
        ⟨3, "u", .str "y", .str "", none, false, .jnull⟩]
       (⟨[⟨2, "t", .cipher ⟨"s", "a", 1, 1⟩, .str "", some 1, false,
         .jnull⟩, ⟨3, "u", .str "y", .str "", none, false, .jnull⟩], 0, [2],
         true, false⟩ : MoveResult).prompts) :=
  ⟨by decide, by decide,
   promptcat_C7_skip_isolation [⟨1, "F", true, .cipher ⟨"1", "a", 0, 0⟩⟩]
     [⟨2, "t", .cipher ⟨"s", "a", 1, 1⟩, .str "", some 1, false, .jnull⟩,
      ⟨3, "u", .str "y", .str "", none, false, .jnull⟩] [2, 3] none ""
     (fun i => if i == 2 then some "bad" else none) 0
     ⟨2, "t", .cipher ⟨"s", "a", 1, 1⟩, .str "", some 1, false, .jnull⟩
     (by decide) (by decide) (by decide) (by decide)
     ⟨[⟨2, "t", .cipher ⟨"s", "a", 1, 1⟩, .str "", some 1, false, .jnull⟩,
       ⟨3, "u", .str "y", .str "", none, false, .jnull⟩], 0, [2], true,
       false⟩ (by decide)⟩

/-! ## C6 - move out of a locked folder -/

/-- C6: moving a selected prompt `q` out of a locked folder `f` - whose
`passwordCheck` and content fields are encrypted under `f`'s password,
which the user supplies correctly - into an unlocked destination folder
yields, in the resulting prompt list, the prompt with plaintext `body` and
`notes`, `isLocked == false`, `passwordCheck == null`, and the destination
folder id; its lock state is thereafter the destination folder's
(`quickCopyIsLocked` of the result equals `df.isLocked`, i.e. unlocked). -/
theorem promptcat_C6_move_out_of_locked (folders : List Folder)
    (prompts : List Prompt) (selected : List Nat) (q : Prompt) (f : Folder)
    (d : Nat) (df : Folder) (pw sB sN inp : String)
    (askPass : Nat → Option String) (g cs ci b1 b2 n1 n2 : Nat)
    (hq : q ∈ prompts) (hsel : q.id ∈ selected)
    (hlf : lookupFolder folders q = some f)
    (hfl : f.isLocked = true)
    (hpc : f.passwordCheck = .cipher ⟨toString f.id, pw, cs, ci⟩)
    (hpw : pw ≠ "")
    (hask : askPass q.id = some pw)
    (hbody : q.body = .cipher ⟨sB, pw, b1, b2⟩)
    (hnotes : q.notes = .cipher ⟨sN, pw, n1, n2⟩)
    (hfindd : folders.find? (fun x => x.id == d) = some df)
    (hdf : df.isLocked = false) :
    ∀ res, handleConfirmMove folders prompts selected (some d) inp askPass
        g = some res →
      { q with body := .str sB, notes := .str sN, isLocked := false,
               passwordCheck := .jnull, folderId := some d } ∈ res.prompts ∧
      quickCopyIsLocked folders
        { q with body := .str sB, notes := .str sN, isLocked := false,
                 passwordCheck := .jnull, folderId := some d } =
        df.isLocked := by
  have hstep : ∀ ga, moveStep folders selected (some d) none askPass q ga =
      some ({ q with body := .str sB, notes := .str sN, isLocked := false,
                     passwordCheck := .jnull, folderId := some d }, ga,
        false) := by
    intro ga
    unfold moveStep
    rw [if_pos hsel]
    simp only [hlf, hfl, if_true]
    unfold moveAskBranch
    rw [hask]
    simp only [if_neg hpw]
    rw [hpc, hbody, hnotes]
    simp only [decryptJS, if_neg hpw, if_pos rfl, Option.bind_eq_bind,
      Option.some_bind, jvalIsStrEq, beq_self_eq_true, if_true, moveFinish,
      truthyOpt, Bool.false_eq_true, if_false]
  have hdest : destUnlockedB folders (some d) = true := by
    simp [destUnlockedB, hfindd, hdf]
  intro res hres
  rw [handleConfirmMove_destUnlocked folders prompts selected (some d) inp
    askPass g hdest] at hres
  unfold moveRun at hres
  cases hloop : moveLoop folders selected (some d) none askPass prompts g with
  | none => rw [hloop] at hres; simp at hres
  | some trip =>
    obtain ⟨ps', g', sks⟩ := trip
    rw [hloop] at hres
    simp only [Option.some.injEq] at hres
    subst hres
    have hall := moveLoop_forall₂ folders selected (some d) none askPass
      prompts g ps' g' sks hloop
    obtain ⟨q', hmem, ga, gb, sk, hstep'⟩ := forall₂_exists_of_mem hall hq
    rw [hstep ga] at hstep'
    injection hstep' with h'
    simp only [Prod.mk.injEq] at h'
    constructor
    · rw [h'.1]; exact hmem
    · simp [quickCopyIsLocked, lookupFolder, hfindd]

/-- Witness for C6: prompt 2 in locked folder 1 (password `"a"`) is moved
to unlocked folder 5 with the correct source password; it arrives in
plaintext, unlocked, with `passwordCheck` cleared. -/
theorem promptcat_C6_witness :
    handleConfirmMove
      [⟨1, "F", true, .cipher ⟨"1", "a", 0, 0⟩⟩, ⟨5, "D", false, .jnull⟩]
      [⟨2, "t", .cipher ⟨"secret", "a", 1, 1⟩, .cipher ⟨"nn", "a", 2, 2⟩,
        some 1, false, .jnull⟩] [2] (some 5) "" (fun _ => some "a") 0 =
      some ⟨[⟨2, "t", .str "secret", .str "nn", some 5, false, .jnull⟩], 0,
        [], true, false⟩ ∧
    ((⟨2, "t", .str "secret", .str "nn", some 5, false, .jnull⟩ : Prompt) ∈
      (⟨[⟨2, "t", .str "secret", .str "nn", some 5, false, .jnull⟩], 0, [],
        true, false⟩ : MoveResult).prompts ∧
     quickCopyIsLocked
      [⟨1, "F", true, .cipher ⟨"1", "a", 0, 0⟩⟩, ⟨5, "D", false, .jnull⟩]
      ⟨2, "t", .str "secret", .str "nn", some 5, false, .jnull⟩ = false) :=
  ⟨by decide,
   promptcat_C6_move_out_of_locked
     [⟨1, "F", true, .cipher ⟨"1", "a", 0, 0⟩⟩, ⟨5, "D", false, .jnull⟩]
     [⟨2, "t", .cipher ⟨"secret", "a", 1, 1⟩, .cipher ⟨"nn", "a", 2, 2⟩,
       some 1, false, .jnull⟩] [2]
     ⟨2, "t", .cipher ⟨"secret", "a", 1, 1⟩, .cipher ⟨"nn", "a", 2, 2⟩,
       some 1, false, .jnull⟩
     ⟨1, "F", true, .cipher ⟨"1", "a", 0, 0⟩⟩ 5 ⟨5, "D", false, .jnull⟩
     "a" "secret" "nn" "" (fun _ => some "a") 0 0 0 1 1 2 2
     (by decide) (by decide) (by decide) (by decide) (by decide) (by decide)
     (by decide) (by decide) (by decide) (by decide) (by decide)
     ⟨[⟨2, "t", .str "secret", .str "nn", some 5, false, .jnull⟩], 0, [],
       true, false⟩ (by decide)⟩

/-- C8 (amended): (1) a cryptographic failure inside `CryptoService`
returns the `null` sentinel rather than raising - decrypting any
ciphertext with a wrong non-empty password yields `some .jnull`; (2) the
move loop skips an item whose owner's password challenge fails, leaving
all its stored fields unchanged, and continues; but (3) in the
folder-unlock loop a field that fails to decrypt even though the folder's
password was verified is overwritten with the `null` sentinel, not left
unchanged - there is no per-field skip. -/
theorem promptcat_C8_amended :
    (∀ (c : Cipher) (pwd : String), pwd ≠ "" → c.pw ≠ pwd →
      decryptJS (.cipher c) pwd = some .jnull) ∧
    (∀ (folders : List Folder) (selected : List Nat) (dst : Option Nat)
      (dp : Option String) (askPass : Nat → Option String) (q : Prompt),
      q.id ∈ selected → sourceRejectsB folders askPass q = true →
      ∀ g, moveStep folders selected dst dp askPass q g =
        some (q, g, true)) ∧
    (∀ (p : Prompt) (fid : Nat) (pw : String) (c : Cipher) (n : JVal),
      p.folderId = some fid → p.body = .cipher c → c.pw ≠ pw → pw ≠ "" →
      decryptJS p.notes pw = some n →
      unlockFolderPrompts fid pw [p] =
        some [{ p with body := .jnull, notes := n }]) := by
  refine ⟨?_, ?_, ?_⟩
  · intro c pwd h1 h2
    simp [decryptJS, h1, h2]
  · intro folders selected dst dp askPass q hsel hrej
    exact moveStep_skip folders selected dst dp askPass q hsel hrej
  · intro p fid pw c n h1 h2 h3 h4 h5
    have hb : decryptJS (.cipher c) pw = some .jnull := by
      simp [decryptJS, h4, h3]
    simp [unlockFolderPrompts, h1, h2, hb, h5]

/-- Witness for C8 (amended) at concrete inputs: a wrong-password decrypt
yields the sentinel; the move step skips prompt 2 unchanged on a wrong
source password; the unlock loop turns a foreign ciphertext body into
`null`. -/
theorem promptcat_C8_amended_witness :
    decryptJS (.cipher ⟨"s", "b", 0, 0⟩) "a" = some .jnull ∧
    moveStep [⟨1, "F", true, .cipher ⟨"1", "a", 0, 0⟩⟩] [2] none none
      (fun _ => some "bad")
      ⟨2, "t", .cipher ⟨"s", "a", 1, 1⟩, .str "", some 1, false, .jnull⟩ 0 =
      some (⟨2, "t", .cipher ⟨"s", "a", 1, 1⟩, .str "", some 1, false,
        .jnull⟩, 0, true) ∧
    unlockFolderPrompts 1 "a"
      [⟨2, "t", .cipher ⟨"s", "b", 0, 0⟩, .str "", some 1, false, .jnull⟩] =
      some [⟨2, "t", .jnull, .str "", some 1, false, .jnull⟩] :=
  ⟨promptcat_C8_amended.1 ⟨"s", "b", 0, 0⟩ "a" (by decide) (by decide),
   promptcat_C8_amended.2.1 [⟨1, "F", true, .cipher ⟨"1", "a", 0, 0⟩⟩] [2]
     none none (fun _ => some "bad")
     ⟨2, "t", .cipher ⟨"s", "a", 1, 1⟩, .str "", some 1, false, .jnull⟩
     (by decide) (by decide) 0,
   promptcat_C8_amended.2.2
     ⟨2, "t", .cipher ⟨"s", "b", 0, 0⟩, .str "", some 1, false, .jnull⟩ 1
     "a" ⟨"s", "b", 0, 0⟩ (.str "") (by decide) (by decide) (by decide)
     (by decide) (by decide)⟩

/-- C9 (amended): when saving an existing prompt, `body`/`notes` are
re-encrypted before persisting exactly when the session cache holds a
truthy password under the destination-folder key
(`"folder-" + folderId`) or, failing that, under the prompt's own key -
regardless of whether that folder is actually locked; otherwise they are
persisted as the plain editor strings.  Saving a brand-new prompt with a
pending lock request encrypts `body`/`notes` with the just-collected
password and stamps `passwordCheck = encrypt(String(prompt.id),
password)` (a ciphertext of the id string) on the prompt itself. -/
theorem promptcat_C9_amended :
    (∀ (prompts : List Prompt) (session : List (String × String))
      (cid : Nat) (t b n : String) (fsel : Option Nat) (g : Nat)
      (p : Prompt),
      prompts.find? (fun x => x.id == cid) = some p →
      ¬(t = "" ∧ b = "" ∧ n = "") →
      (truthyOpt (jsOrStr
          (lookupSession session ("folder-" ++ optIdStr fsel))
          (lookupSession session ("prompt-" ++ toString p.id))) = false →
        handleSavePromptExisting prompts session cid t b n fsel g =
          some (replacePrompt prompts
            { p with body := .str b, notes := .str n, title := t,
                     folderId := fsel }, g)) ∧
      (∀ w, jsOrStr (lookupSession session ("folder-" ++ optIdStr fsel))
          (lookupSession session ("prompt-" ++ toString p.id)) = some w →
        w ≠ "" →
        handleSavePromptExisting prompts session cid t b n fsel g =
          some (replacePrompt prompts
            { p with body := encryptJS (.str b) w g,
                     notes := encryptJS (.str n) w (g + 1), title := t,
                     folderId := fsel }, g + 2))) ∧
    (∀ (prompts : List Prompt) (pw : String) (now : Nat) (t b n : String)
      (fsel : Option Nat) (g : Nat),
      ¬(t = "" ∧ b = "" ∧ n = "") → pw ≠ "" →
      handleSavePromptNew prompts (some pw) now t b n fsel g =
        some (prompts ++
          [{ id := now, title := t, body := encryptJS (.str b) pw g,
             notes := encryptJS (.str n) pw (g + 1), folderId := fsel,
             isLocked := true,
             passwordCheck := .cipher ⟨toString now, pw, g + 2, g + 2⟩ }],
          g + 3)) := by
  constructor
  · intro prompts session cid t b n fsel g p hfind hne
    constructor
    · intro hfalsy
      unfold handleSavePromptExisting
      rw [if_neg hne, hfind]
      simp only [hfalsy, Bool.false_eq_true, if_false]
    · intro w hw hwne
      unfold handleSavePromptExisting
      rw [if_neg hne, hfind]
      have ht2 : truthyOpt (some w) = true := by simp [truthyOpt, hwne]
      simp only [hw, ht2, if_true, Option.getD_some]
  · intro prompts pw now t b n fsel g hne hpw
    unfold handleSavePromptNew
    rw [if_neg hne]
    simp only [encryptJS, natToString_ne_empty now, hpw, or_self,
      Bool.false_eq_true, if_false, false_or, if_neg]

/-- Witness for C9 (amended): saving own-locked prompt 2 with its password
remembered under `"prompt-2"` re-encrypts the edited content; creating new
prompt 7 with a pending lock request stores encrypted content and a
ciphertext `passwordCheck` of `"7"`. -/
theorem promptcat_C9_amended_witness :
    handleSavePromptExisting
      [⟨2, "t", .cipher ⟨"x", "pp", 0, 0⟩, .str "", none, true,
        .cipher ⟨"2", "pp", 5, 5⟩⟩] [("prompt-2", "pp")] 2 "t" "b" "" none
      0 =
      some (replacePrompt
        [⟨2, "t", .cipher ⟨"x", "pp", 0, 0⟩, .str "", none, true,
          .cipher ⟨"2", "pp", 5, 5⟩⟩]
        { (⟨2, "t", .cipher ⟨"x", "pp", 0, 0⟩, .str "", none, true,
            .cipher ⟨"2", "pp", 5, 5⟩⟩ : Prompt) with
          body := encryptJS (.str "b") "pp" 0,
          notes := encryptJS (.str "") "pp" 1, title := "t",
          folderId := none }, 2) ∧
    handleSavePromptNew [] (some "np") 7 "t" "b" "n" none 0 =
      some ([] ++
        [{ id := 7, title := "t", body := encryptJS (.str "b") "np" 0,
           notes := encryptJS (.str "n") "np" 1, folderId := none,
           isLocked := true,
           passwordCheck := .cipher ⟨toString 7, "np", 2, 2⟩ }], 3) :=
  ⟨(promptcat_C9_amended.1
      [⟨2, "t", .cipher ⟨"x", "pp", 0, 0⟩, .str "", none, true,
        .cipher ⟨"2", "pp", 5, 5⟩⟩] [("prompt-2", "pp")] 2 "t" "b" "" none
      0
      ⟨2, "t", .cipher ⟨"x", "pp", 0, 0⟩, .str "", none, true,
        .cipher ⟨"2", "pp", 5, 5⟩⟩ (by decide) (by decide)).2 "pp"
      (by decide) (by decide),
   promptcat_C9_amended.2 [] "np" 7 "t" "b" "n" none 0 (by decide)
     (by decide)⟩

/-! ## Well-formedness preservation lemmas -/

/-- Replacing a well-formed folder keeps the folder collection
well-formed. -/
theorem all_folderWF_replace (folders : List Folder) (f' : Folder)
    (hall : folders.all folderWF = true) (hf' : folderWF f' = true) :
    (replaceFolder folders f').all folderWF = true := by
  rw [List.all_eq_true] at hall ⊢
  intro x hx
  obtain ⟨a, ha, hax⟩ := List.mem_map.mp hx
  by_cases hid : a.id == f'.id
  · rw [if_pos hid] at hax; rw [← hax]; exact hf'
  · rw [if_neg hid] at hax; rw [← hax]; exact hall a ha

/-- An element of a replaced prompt list is the replacement or an original
element. -/
theorem mem_replacePrompt (prompts : List Prompt) (p' x : Prompt)
    (hx : x ∈ replacePrompt prompts p') : x = p' ∨ x ∈ prompts := by
  obtain ⟨a, ha, hax⟩ := List.mem_map.mp hx
  by_cases hid : a.id == p'.id
  · rw [if_pos hid] at hax; exact Or.inl hax.symm
  · rw [if_neg hid] at hax; exact Or.inr (hax ▸ ha)

/-- A prompt owned by a different folder (or none) sees the same context
after an in-place folder mutation. -/
theorem promptWF_replaceFolder_other (folders : List Folder) (f' : Folder)
    (p : Prompt) (hne : p.folderId ≠ some f'.id) :
    promptWF (replaceFolder folders f') p = promptWF folders p := by
  unfold promptWF lookupFolder
  cases hfid : p.folderId with
  | none => rfl
  | some d =>
    have hd : f'.id ≠ d := by
      intro h; exact hne (by rw [hfid, h])
    simp only [find?_replaceFolder_ne folders f' d hd]

/-- The lock loop of `handleToggleFolderLock` preserves prompt
well-formedness: in the new context the mutated folder is locked under
`pw` with a fresh id-check, contained prompts (given none is individually
locked) come out empty-or-encrypted under `pw`, and other prompts are
untouched. -/
theorem lockFolderPrompts_WF (folders : List Folder) (f : Folder)
    (pw : String) (g0 : Nat)
    (hf2 : folders.find? (fun x => x.id == f.id) = some f)
    (hfl : f.isLocked = false) (hpw : pw ≠ "")
    (fL : Folder)
    (hfL : fL = { f with isLocked := true,
                         passwordCheck := .cipher ⟨toString f.id, pw, g0, g0⟩ }) :
    ∀ (l : List Prompt),
      (∀ p ∈ l, promptWF folders p = true) →
      (∀ p ∈ l, p.folderId = some f.id → p.isLocked = false) →
      ∀ g, ∀ p' ∈ (lockFolderPrompts f.id pw l g).1,
        promptWF (replaceFolder folders fL) p' = true := by
  have hfL2 : (replaceFolder folders fL).find? (fun x => x.id == f.id) =
      some fL := find?_replaceFolder folders f fL f.id hf2 (by rw [hfL])
  have hfLlock : fL.isLocked = true := by rw [hfL]
  have hfLpc : checkPw fL.passwordCheck = pw := by rw [hfL]; rfl
  intro l
  induction l with
  | nil => intro _ _ g p' hp'; simp [lockFolderPrompts] at hp'
  | cons p rest ih =>
    intro hwf hnolock g p' hp'
    have hwfrest : ∀ q ∈ rest, promptWF folders q = true :=
      fun q hq => hwf q (List.mem_cons_of_mem p hq)
    have hnorest : ∀ q ∈ rest, q.folderId = some f.id → q.isLocked = false :=
      fun q hq => hnolock q (List.mem_cons_of_mem p hq)
    by_cases hp : p.folderId = some f.id
    · have hp'' : (p.folderId == some f.id) = true := by simpa using hp
      simp only [lockFolderPrompts, hp'', if_true, List.mem_cons] at hp'
      rcases hp' with heq | hp'
      case _ =>
        have hwfp := hwf p (List.mem_cons_self p rest)
        have hlk := hnolock p (List.mem_cons_self p rest) hp
        unfold promptWF at hwfp
        simp only [lookupFolder, hp, hf2, hfl, Bool.false_eq_true, if_false]
          at hwfp
        unfold ownWF at hwfp
        simp only [hlk, Bool.false_eq_true, if_false] at hwfp
        obtain ⟨hb, hn⟩ := Bool.and_eq_true_iff.mp hwfp
        obtain ⟨sb, hsb⟩ : ∃ s, p.body = .str s := by
          cases hpb : p.body <;> simp [hpb, plainStr] at hb ⊢
        obtain ⟨sn, hsn⟩ : ∃ s, p.notes = .str s := by
          cases hpn : p.notes <;> simp [hpn, plainStr] at hn ⊢
        rw [heq]
        unfold promptWF
        simp only [lookupFolder, hp, hfL2, hfLlock, if_true, hfLpc, hlk,
          hsb, hsn, Bool.not_false, Bool.true_and]
        refine Bool.and_eq_true_iff.mpr ⟨?_, ?_⟩
        · by_cases hsb0 : sb = "" <;>
            simp [encryptJS, fieldOk, cipherUnder, hsb0, hpw]
        · by_cases hsn0 : sn = "" <;>
            simp [encryptJS, fieldOk, cipherUnder, hsn0, hpw]
      case _ => exact ih hwfrest hnorest (g + 2) p' hp'
    · have hp'' : (p.folderId == some f.id) = false := by simpa using hp
      simp only [lockFolderPrompts, hp'', Bool.false_eq_true, if_false,
        List.mem_cons] at hp'
      rcases hp' with heq | hp'
      · rw [heq, promptWF_replaceFolder_other folders fL p
          (by rw [hfL]; exact hp)]
        exact hwf p (List.mem_cons_self p rest)
      · exact ih hwfrest hnorest g p' hp'

/-- A well-shaped content field (empty or encrypted under `pw`) decrypts
to a plain string under `pw`. -/
theorem fieldOk_decrypt (v : JVal) (pw : String) (hok : fieldOk v pw = true)
    (hpw : pw ≠ "") : ∃ s, decryptJS v pw = some (.str s) := by
  unfold fieldOk cipherUnder at hok
  cases v with
  | str s => exact ⟨s, rfl⟩
  | cipher c =>
    have hc : c.pw = pw := by simpa using hok
    exact ⟨c.payload, by simp [decryptJS, hpw, hc]⟩
  | jnull => simp at hok
  | undef => simp at hok

/-- The unlock loop of `handleToggleFolderLock` preserves prompt
well-formedness: contained prompts (whose fields are empty or encrypted
under the folder's password, and which are not individually locked) come
out with plain-string fields, which is what the now-unlocked folder
context demands; other prompts are untouched. -/
theorem unlockFolderPrompts_WF (folders : List Folder) (f : Folder)
    (hf2 : folders.find? (fun x => x.id == f.id) = some f)
    (hfl : f.isLocked = true)
    (hpw : checkPw f.passwordCheck ≠ "")
    (fU : Folder)
    (hfU : fU = { f with isLocked := false, passwordCheck := .jnull }) :
    ∀ (l l' : List Prompt),
      (∀ p ∈ l, promptWF folders p = true) →
      unlockFolderPrompts f.id (checkPw f.passwordCheck) l = some l' →
      ∀ p' ∈ l', promptWF (replaceFolder folders fU) p' = true := by
  have hfU2 : (replaceFolder folders fU).find? (fun x => x.id == f.id) =
      some fU := find?_replaceFolder folders f fU f.id hf2 (by rw [hfU])
  have hfUlock : fU.isLocked = false := by rw [hfU]
  intro l
  induction l with
  | nil =>
    intro l' _ h p' hp'
    simp only [unlockFolderPrompts, Option.some.injEq] at h
    rw [← h] at hp'
    simp at hp'
  | cons p rest ih =>
    intro l' hwf h
    unfold unlockFolderPrompts at h
    cases hrec : unlockFolderPrompts f.id (checkPw f.passwordCheck) rest with
    | none => rw [hrec] at h; simp at h
    | some rest' =>
      rw [hrec] at h
      simp only [Option.bind_eq_bind, Option.some_bind] at h
      have hwfrest : ∀ q ∈ rest, promptWF folders q = true :=
        fun q hq => hwf q (List.mem_cons_of_mem p hq)
      by_cases hp : p.folderId = some f.id
      · have hp'' : (p.folderId == some f.id) = true := by simpa using hp
        rw [if_pos hp''] at h
        have hwfp := hwf p (List.mem_cons_self p rest)
        unfold promptWF at hwfp
        simp only [lookupFolder, hp, hf2, hfl, if_true] at hwfp
        obtain ⟨h1, hnok⟩ := Bool.and_eq_true_iff.mp hwfp
        obtain ⟨hnl, hbok⟩ := Bool.and_eq_true_iff.mp h1
        obtain ⟨sb, hsb⟩ := fieldOk_decrypt p.body _ hbok hpw
        obtain ⟨sn, hsn⟩ := fieldOk_decrypt p.notes _ hnok hpw
        rw [hsb, hsn] at h
        simp only [Option.some_bind, Option.some.injEq] at h
        intro p' hp'
        rw [← h] at hp'
        rcases List.mem_cons.mp hp' with heq | hmem
        · rw [heq]
          unfold promptWF
          simp only [lookupFolder, hp, hfU2, hfUlock, Bool.false_eq_true,
            if_false]
          unfold ownWF
          have hnl' : p.isLocked = false := by simpa using hnl
          simp [hnl', plainStr]
        · exact ih rest' hwfrest hrec p' hmem
      · have hp'' : ¬((p.folderId == some f.id) = true) := by simpa using hp
        rw [if_neg hp''] at h
        simp only [Option.some.injEq] at h
        intro p' hp'
        rw [← h] at hp'
        rcases List.mem_cons.mp hp' with heq | hmem
        · rw [heq, promptWF_replaceFolder_other folders fU p
            (by rw [hfU]; exact hp)]
          exact hwf p (List.mem_cons_self p rest)
        · exact ih rest' hwfrest hrec p' hmem

/-- `handleToggleFolderLock` preserves well-formedness, provided locking
is not applied over an individually locked contained prompt (the
side condition). -/
theorem toggleFolderLock_WF (folders : List Folder) (prompts : List Prompt)
    (fid : Nat) (resp : Option String) (g : Nat)
    (hwf : stateWF folders prompts = true)
    (hok : (match folders.find? (fun x => x.id == fid) with
      | some f => f.isLocked ||
          prompts.all fun p => !(p.folderId == some f.id) || !p.isLocked
      | none => true) = true) :
    ∀ res, handleToggleFolderLock folders prompts fid resp g = some res →
      stateWF res.folders res.prompts = true := by
  intro res hres
  obtain ⟨hFall, hPall⟩ := Bool.and_eq_true_iff.mp hwf
  have hPall' : ∀ p ∈ prompts, promptWF folders p = true := by
    intro p hp
    exact (List.all_eq_true.mp hPall) p hp
  unfold handleToggleFolderLock at hres
  cases hfind : folders.find? (fun x => x.id == fid) with
  | none =>
    rw [hfind] at hres
    simp only [Option.some.injEq] at hres
    rw [← hres]
    exact hwf
  | some f =>
    rw [hfind] at hres
    have hfid : f.id = fid := by simpa using List.find?_some hfind
    have hf2 : folders.find? (fun x => x.id == f.id) = some f := by
      rw [hfid]; exact hfind
    have hfwf : folderWF f = true := by
      have hfmem : f ∈ folders := List.mem_of_find?_eq_some hfind
      exact (List.all_eq_true.mp hFall) f hfmem
    cases hfl : f.isLocked with
    | true =>
      simp only [hfl, if_true] at hres
      cases resp with
      | none =>
        simp only [Option.some.injEq] at hres
        rw [← hres]; exact hwf
      | some password =>
        by_cases hpw : password = ""
        · simp only [if_pos hpw] at hres
          simp only [Option.some.injEq] at hres
          rw [← hres]; exact hwf
        · simp only [if_neg hpw] at hres
          unfold folderWF at hfwf
          rw [hfl] at hfwf
          simp only [Bool.not_true, Bool.false_or] at hfwf
          cases hpc : f.passwordCheck with
          | str s => rw [hpc] at hfwf; simp at hfwf
          | jnull => rw [hpc] at hfwf; simp at hfwf
          | undef => rw [hpc] at hfwf; simp at hfwf
          | cipher c =>
            rw [hpc] at hfwf
            simp only [Bool.and_eq_true, beq_iff_eq, Bool.not_eq_eq_eq_not,
              Bool.not_false] at hfwf
            obtain ⟨hcpay, hcpw⟩ := hfwf
            have hcpw' : c.pw ≠ "" := by simpa using hcpw
            rw [hpc] at hres
            by_cases hmatch : c.pw = password
            · simp only [decryptJS, if_neg hpw, hmatch, if_true] at hres
              have hchk : jvalIsStrEq (.str c.payload) (toString f.id) =
                  true := by simp [jvalIsStrEq, hcpay]
              rw [hchk] at hres
              simp only [if_true] at hres
              cases hul : unlockFolderPrompts f.id password prompts with
              | none => rw [hul] at hres; simp at hres
              | some prompts' =>
                rw [hul] at hres
                simp only [Option.some.injEq] at hres
                rw [← hres]
                have hpwck : checkPw f.passwordCheck = password := by
                  rw [hpc]; simp [checkPw, hmatch]
                have hpwck' : checkPw f.passwordCheck ≠ "" := by
                  rw [hpwck]; exact hpw
                have hul' : unlockFolderPrompts f.id
                    (checkPw f.passwordCheck) prompts = some prompts' := by
                  rw [hpwck]; exact hul
                refine Bool.and_eq_true_iff.mpr ⟨?_, ?_⟩
                · exact all_folderWF_replace folders _ hFall
                    (by simp [folderWF])
                · refine List.all_eq_true.mpr ?_
                  intro p' hp'
                  exact unlockFolderPrompts_WF folders f hf2 hfl hpwck' _
                    rfl prompts prompts' hPall' hul' p' hp'
            · simp only [decryptJS, if_neg hpw, if_neg hmatch] at hres
              have hchk : jvalIsStrEq JVal.jnull (toString f.id) = false :=
                rfl
              rw [hchk] at hres
              simp only [Bool.false_eq_true, if_false,
                Option.some.injEq] at hres
              rw [← hres]
              exact hwf
    | false =>
      simp only [hfl, Bool.false_eq_true, if_false] at hres
      cases resp with
      | none =>
        simp only [Option.some.injEq] at hres
        rw [← hres]; exact hwf
      | some password =>
        by_cases hpw : password = ""
        · simp only [if_pos hpw] at hres
          simp only [Option.some.injEq] at hres
          rw [← hres]; exact hwf
        · simp only [if_neg hpw] at hres
          simp only [Option.some.injEq] at hres
          rw [← hres]
          rw [hfind] at hok
          simp only [hfl, Bool.false_or] at hok
          have hok' : ∀ p ∈ prompts, p.folderId = some f.id →
              p.isLocked = false := by
            intro p hp hpf
            have := (List.all_eq_true.mp hok) p hp
            simp only [hpf, beq_self_eq_true, Bool.not_true,
              Bool.false_or] at this
            simpa using this
          have hpcEq : encryptJS (.str (toString f.id)) password g =
              .cipher ⟨toString f.id, password, g, g⟩ := by
            simp [encryptJS, natToString_ne_empty f.id, hpw]
          refine Bool.and_eq_true_iff.mpr ⟨?_, ?_⟩
          · refine all_folderWF_replace folders _ hFall ?_
            simp [folderWF, hpcEq, natToString_ne_empty f.id, hpw]
          · refine List.all_eq_true.mpr ?_
            intro p' hp'
            exact lockFolderPrompts_WF folders f password g
              hf2 hfl hpw _ (by rw [hpcEq]) prompts hPall' hok' (g + 1)
              p' hp'

/-- Discipline on the destination password the `handleConfirmMove` loop
can actually be reached with: either no destination password (destination
absent, dangling or unlocked), or the destination folder is locked and
the password is its verified, non-empty true password. -/
def destClauseOK (folders : List Folder) (dst : Option Nat)
    (dp : Option String) : Prop :=
  (dp = none ∧ destUnlockedB folders dst = true) ∨
  (∃ d df dpw, dst = some d ∧
    folders.find? (fun x => x.id == d) = some df ∧ df.isLocked = true ∧
    dp = some dpw ∧ dpw ≠ "" ∧ dpw = checkPw df.passwordCheck)

/-- Finishing a move with plain decrypted content yields a well-formed
prompt: plaintext into an unlocked/absent destination, empty-or-encrypted
under the destination's password into a locked one, with the own lock and
`passwordCheck` cleared either way. -/
theorem moveFinish_WF (folders : List Folder) (dst : Option Nat)
    (dp : Option String) (hdok : destClauseOK folders dst dp) (p : Prompt)
    (cb cn : JVal) (g : Nat) (hcb : plainStr cb = true)
    (hcn : plainStr cn = true) :
    promptWF folders (moveFinish p dst dp cb cn g).1 = true := by
  obtain ⟨sb, rfl⟩ : ∃ s, cb = .str s := by
    cases hb : cb <;> simp [hb, plainStr] at hcb ⊢
  obtain ⟨sn, rfl⟩ : ∃ s, cn = .str s := by
    cases hn : cn <;> simp [hn, plainStr] at hcn ⊢
  rcases hdok with ⟨hdp, hdun⟩ | ⟨d, df, dpw, hdst, hfindd, hdfl, hdp,
    hdpw, hdpwck⟩
  · subst hdp
    unfold moveFinish
    simp only [truthyOpt, Bool.false_eq_true, if_false]
    unfold promptWF lookupFolder
    unfold destUnlockedB at hdun
    cases hdst : dst with
    | none => simp [ownWF, plainStr]
    | some d =>
      simp only [hdst] at hdun
      cases hfd : folders.find? (fun x => x.id == d) with
      | none => simp [hfd, ownWF, plainStr]
      | some df =>
        simp only [hfd] at hdun
        have : df.isLocked = false := by simpa using hdun
        simp [hfd, this, ownWF, plainStr]
  · subst hdst hdp
    subst hdpwck
    unfold moveFinish
    have htr : truthyOpt (some (checkPw df.passwordCheck)) = true := by
      simpa [truthyOpt] using hdpw
    simp only [htr, if_true, Option.getD_some]
    unfold promptWF lookupFolder
    simp only [hfindd, hdfl, if_true, Bool.not_false, Bool.true_and]
    refine Bool.and_eq_true_iff.mpr ⟨?_, ?_⟩
    · by_cases hsb0 : sb = "" <;>
        simp [encryptJS, fieldOk, cipherUnder, hsb0, hdpw]
    · by_cases hsn0 : sn = "" <;>
        simp [encryptJS, fieldOk, cipherUnder, hsn0, hdpw]

/-- Characterisation of the ask-and-verify block's outcomes: either a
skip, or a successful verification followed by decryption of both fields
and the move finish. -/
theorem moveAskBranch_out (dst : Option Nat) (dp : Option String)
    (ask : Option String) (pc : JVal) (idStr : String) (q : Prompt)
    (g : Nat) (out : Prompt × Nat × Bool)
    (h : moveAskBranch dst dp ask pc idStr q g = some out) :
    out = (q, g, true) ∨
    ∃ oldPass cb cn, ask = some oldPass ∧ oldPass ≠ "" ∧
      (∃ chk, decryptJS pc oldPass = some chk ∧
        jvalIsStrEq chk idStr = true) ∧
      decryptJS q.body oldPass = some cb ∧
      decryptJS q.notes oldPass = some cn ∧
      out = ((moveFinish q dst dp cb cn g).1,
        (moveFinish q dst dp cb cn g).2, false) := by
  unfold moveAskBranch at h
  cases ask with
  | none =>
    left
    simpa using h.symm
  | some s =>
    by_cases hs : s = ""
    · left
      simp only [if_pos hs] at h
      simpa using h.symm
    · simp only [if_neg hs] at h
      simp only [Option.bind_eq_bind] at h
      cases hdec : decryptJS pc s with
      | none => rw [hdec] at h; simp at h
      | some chk =>
        rw [hdec] at h
        simp only [Option.some_bind] at h
        by_cases hchk : jvalIsStrEq chk idStr = true
        · rw [if_pos hchk] at h
          cases hcb : decryptJS q.body s with
          | none => rw [hcb] at h; simp at h
          | some cb =>
            rw [hcb] at h
            simp only [Option.some_bind] at h
            cases hcn : decryptJS q.notes s with
            | none => rw [hcn] at h; simp at h
            | some cn =>
              rw [hcn] at h
              simp only [Option.some_bind, Option.some.injEq] at h
              right
              exact ⟨s, cb, cn, rfl, hs, ⟨chk, hdec, hchk⟩, hcb, hcn,
                h.symm⟩
        · rw [if_neg hchk] at h
          left
          simpa using h.symm

/-- The ask-and-verify block preserves prompt well-formedness when the
owner's `passwordCheck` is a ciphertext under a non-empty password and
the prompt's fields are empty or encrypted under that same password: it
either skips the prompt or finishes the move on successfully decrypted
plain content. -/
theorem moveAskBranch_WF_out (folders : List Folder) (dst : Option Nat)
    (dp : Option String) (hdok : destClauseOK folders dst dp)
    (ask : Option String) (c : Cipher) (idStr : String) (p : Prompt)
    (hwfp : promptWF folders p = true) (hcpw : c.pw ≠ "")
    (hbok : fieldOk p.body c.pw = true) (hnok : fieldOk p.notes c.pw = true)
    (g : Nat) (p' : Prompt) (g' : Nat) (sk : Bool)
    (h : moveAskBranch dst dp ask (.cipher c) idStr p g =
      some (p', g', sk)) :
    promptWF folders p' = true := by
  rcases moveAskBranch_out dst dp ask (.cipher c) idStr p g _ h with heq |
    ⟨oldPass, cb, cn, hask, hop, ⟨chk, hchk, hchkeq⟩, hcb, hcn, hout⟩
  · simp only [Prod.mk.injEq] at heq
    rw [heq.1]
    exact hwfp
  · have hpass : c.pw = oldPass := by
      by_contra hne
      simp only [decryptJS, if_neg hop, if_neg hne,
        Option.some.injEq] at hchk
      rw [← hchk] at hchkeq
      simp [jvalIsStrEq] at hchkeq
    obtain ⟨sb, hsb⟩ := fieldOk_decrypt p.body c.pw hbok hcpw
    obtain ⟨sn, hsn⟩ := fieldOk_decrypt p.notes c.pw hnok hcpw
    rw [hpass] at hsb hsn
    rw [hsb] at hcb
    rw [hsn] at hcn
    simp only [Option.some.injEq] at hcb hcn
    simp only [Prod.mk.injEq] at hout
    rw [hout.1]
    exact moveFinish_WF folders dst dp hdok p cb cn g
      (by rw [← hcb]; rfl) (by rw [← hcn]; rfl)

/-- One move step preserves prompt well-formedness under the
destination-password discipline. -/
theorem moveStep_WF_out (folders : List Folder) (selected : List Nat)
    (dst : Option Nat) (dp : Option String)
    (askPass : Nat → Option String) (hdok : destClauseOK folders dst dp)
    (p : Prompt) (hwfp : promptWF folders p = true)
    (hFall : folders.all folderWF = true) :
    ∀ g p' g' sk, moveStep folders selected dst dp askPass p g =
      some (p', g', sk) → promptWF folders p' = true := by
  intro g p' g' sk h
  unfold moveStep at h
  by_cases hsel : p.id ∈ selected
  swap
  · rw [if_neg hsel] at h
    simp only [Option.some.injEq, Prod.mk.injEq] at h
    rw [← h.1]
    exact hwfp
  · rw [if_pos hsel] at h
    have hown : promptWF folders p = true := hwfp
    cases hlf : lookupFolder folders p with
    | some of =>
      simp only [hlf] at h
      have hofwf : folderWF of = true := by
        have hofmem : of ∈ folders := by
          unfold lookupFolder at hlf
          cases hfid : p.folderId with
          | none => rw [hfid] at hlf; simp at hlf
          | some d =>
            rw [hfid] at hlf
            exact List.mem_of_find?_eq_some hlf
        exact (List.all_eq_true.mp hFall) of hofmem
      cases hofl : of.isLocked with
      | true =>
        simp only [hofl, if_true] at h
        unfold promptWF at hwfp
        simp only [hlf, hofl, if_true] at hwfp
        obtain ⟨h1, hnok⟩ := Bool.and_eq_true_iff.mp hwfp
        obtain ⟨hnl, hbok⟩ := Bool.and_eq_true_iff.mp h1
        unfold folderWF at hofwf
        rw [hofl] at hofwf
        simp only [Bool.not_true, Bool.false_or] at hofwf
        cases hpc : of.passwordCheck with
        | str s => rw [hpc] at hofwf; simp at hofwf
        | jnull => rw [hpc] at hofwf; simp at hofwf
        | undef => rw [hpc] at hofwf; simp at hofwf
        | cipher c =>
          rw [hpc] at hofwf
          obtain ⟨-, hcpw⟩ := Bool.and_eq_true_iff.mp hofwf
          have hcpw' : c.pw ≠ "" := by simpa using hcpw
          rw [hpc] at h
          have hck : checkPw of.passwordCheck = c.pw := by
            rw [hpc]; rfl
          rw [hck] at hbok hnok
          exact moveAskBranch_WF_out folders dst dp hdok (askPass p.id) c
            (toString of.id) p hown hcpw' hbok hnok g p' g' sk h
      | false =>
        simp only [hofl, Bool.false_eq_true, if_false] at h
        unfold promptWF at hwfp
        simp only [hlf, hofl, Bool.false_eq_true, if_false] at hwfp
        cases hpl : p.isLocked with
        | true =>
          simp only [hpl, if_true] at h
          unfold ownWF at hwfp
          rw [hpl] at hwfp
          simp only [if_true] at hwfp
          cases hpc : p.passwordCheck with
          | str s => rw [hpc] at hwfp; simp at hwfp
          | jnull => rw [hpc] at hwfp; simp at hwfp
          | undef => rw [hpc] at hwfp; simp at hwfp
          | cipher c =>
            rw [hpc] at hwfp
            simp only [Bool.and_eq_true] at hwfp
            obtain ⟨⟨⟨-, hcpw⟩, hbok⟩, hnok⟩ := hwfp
            have hcpw' : c.pw ≠ "" := by simpa using hcpw
            rw [hpc] at h
            exact moveAskBranch_WF_out folders dst dp hdok (askPass p.id) c
              (toString p.id) p hown hcpw' hbok hnok g p' g' sk h
        | false =>
          simp only [hpl, Bool.false_eq_true, if_false,
            Option.some.injEq, Prod.mk.injEq] at h
          unfold ownWF at hwfp
          rw [hpl] at hwfp
          simp only [Bool.false_eq_true, if_false, Bool.and_eq_true]
            at hwfp
          obtain ⟨hb, hn⟩ := hwfp
          rw [← h.1]
          exact moveFinish_WF folders dst dp hdok p p.body p.notes g hb hn
    | none =>
      simp only [hlf] at h
      unfold promptWF at hwfp
      simp only [hlf] at hwfp
      cases hpl : p.isLocked with
      | true =>
        simp only [hpl, if_true] at h
        unfold ownWF at hwfp
        rw [hpl] at hwfp
        simp only [if_true] at hwfp
        cases hpc : p.passwordCheck with
        | str s => rw [hpc] at hwfp; simp at hwfp
        | jnull => rw [hpc] at hwfp; simp at hwfp
        | undef => rw [hpc] at hwfp; simp at hwfp
        | cipher c =>
          rw [hpc] at hwfp
          simp only [Bool.and_eq_true] at hwfp
          obtain ⟨⟨⟨-, hcpw⟩, hbok⟩, hnok⟩ := hwfp
          have hcpw' : c.pw ≠ "" := by simpa using hcpw
          rw [hpc] at h
          exact moveAskBranch_WF_out folders dst dp hdok (askPass p.id) c
            (toString p.id) p hown hcpw' hbok hnok g p' g' sk h
      | false =>
        simp only [hpl, Bool.false_eq_true, if_false, Option.some.injEq,
          Prod.mk.injEq] at h
        unfold ownWF at hwfp
        rw [hpl] at hwfp
        simp only [Bool.false_eq_true, if_false, Bool.and_eq_true] at hwfp
        obtain ⟨hb, hn⟩ := hwfp
        rw [← h.1]
        exact moveFinish_WF folders dst dp hdok p p.body p.notes g hb hn

/-- A `Forall₂` relation yields, for every member of the right list, a
related member of the left list. -/
theorem forall₂_exists_of_mem_right {α β : Type _} {R : α → β → Prop} :
    ∀ {l : List α} {l' : List β}, List.Forall₂ R l l' → ∀ {b : β}, b ∈ l' →
      ∃ a, a ∈ l ∧ R a b := by
  intro l l' h
  induction h with
  | nil => intro b hb; simp at hb
  | @cons x y xs ys hr hrest ih =>
    intro b hb
    rcases List.mem_cons.mp hb with rfl | hb'
    · exact ⟨x, List.mem_cons_self _ _, hr⟩
    · obtain ⟨a, ha, hra⟩ := ih hb'
      exact ⟨a, List.mem_cons_of_mem _ ha, hra⟩

/-- The loop-and-commit phase of `handleConfirmMove` preserves
well-formedness under the destination-password discipline. -/
theorem moveRun_WF (folders : List Folder) (prompts : List Prompt)
    (selected : List Nat) (dst : Option Nat) (dp : Option String)
    (askPass : Nat → Option String) (g : Nat)
    (hwf : stateWF folders prompts = true)
    (hdok : destClauseOK folders dst dp) :
    ∀ res, moveRun folders prompts selected dst dp askPass g = some res →
      stateWF folders res.prompts = true := by
  intro res hres
  obtain ⟨hFall, hPall⟩ := Bool.and_eq_true_iff.mp hwf
  unfold moveRun at hres
  cases hloop : moveLoop folders selected dst dp askPass prompts g with
  | none => rw [hloop] at hres; simp at hres
  | some trip =>
    obtain ⟨ps', g', sks⟩ := trip
    rw [hloop] at hres
    simp only [Option.some.injEq] at hres
    rw [← hres]
    have hall := moveLoop_forall₂ folders selected dst dp askPass prompts g
      ps' g' sks hloop
    refine Bool.and_eq_true_iff.mpr ⟨hFall, ?_⟩
    refine List.all_eq_true.mpr ?_
    intro p' hp'
    obtain ⟨p, hp, ga, gb, sk, hstep⟩ := forall₂_exists_of_mem_right hall hp'
    exact moveStep_WF_out folders selected dst dp askPass hdok p
      ((List.all_eq_true.mp hPall) p hp) hFall ga p' gb sk hstep

/-- `handleConfirmMove` preserves well-formedness unconditionally: its
destination pre-check and per-item source-password checks enforce
everything the invariant needs. -/
theorem confirmMove_WF (folders : List Folder) (prompts : List Prompt)
    (selected : List Nat) (dst : Option Nat) (inp : String)
    (askPass : Nat → Option String) (g : Nat)
    (hwf : stateWF folders prompts = true) :
    ∀ res, handleConfirmMove folders prompts selected dst inp askPass g =
        some res →
      stateWF folders res.prompts = true := by
  intro res hres
  obtain ⟨hFall, hPall⟩ := Bool.and_eq_true_iff.mp hwf
  unfold handleConfirmMove at hres
  cases hdst : dst with
  | none =>
    simp only [hdst] at hres
    exact moveRun_WF folders prompts selected none none askPass g hwf
      (Or.inl ⟨rfl, by simp [destUnlockedB]⟩) res hres
  | some d =>
    cases hfd : folders.find? (fun f => f.id == d) with
    | none =>
      simp only [hdst, hfd] at hres
      exact moveRun_WF folders prompts selected (some d) none askPass g hwf
        (Or.inl ⟨rfl, by simp [destUnlockedB, hfd]⟩) res hres
    | some df =>
      cases hdfl : df.isLocked with
      | false =>
        simp only [hdst, hfd, hdfl, Bool.false_eq_true, if_false] at hres
        exact moveRun_WF folders prompts selected (some d) none askPass g
          hwf (Or.inl ⟨rfl, by simp [destUnlockedB, hfd, hdfl]⟩) res hres
      | true =>
        simp only [hdst, hfd, hdfl, if_true] at hres
        have hdfwf : folderWF df = true :=
          (List.all_eq_true.mp hFall) df (List.mem_of_find?_eq_some hfd)
        unfold folderWF at hdfwf
        rw [hdfl] at hdfwf
        simp only [Bool.not_true, Bool.false_or] at hdfwf
        cases hpc : df.passwordCheck with
        | str s => rw [hpc] at hdfwf; simp at hdfwf
        | jnull => rw [hpc] at hdfwf; simp at hdfwf
        | undef => rw [hpc] at hdfwf; simp at hdfwf
        | cipher c =>
          rw [hpc] at hdfwf
          obtain ⟨hcpay, hcpw⟩ := Bool.and_eq_true_iff.mp hdfwf
          have hcpay' : c.payload = toString df.id := by simpa using hcpay
          have hcpw' : c.pw ≠ "" := by simpa using hcpw
          rw [hpc] at hres
          by_cases hinp : inp = ""
          · simp only [decryptJS, if_pos hinp] at hres
            have : jvalIsStrEq (.cipher c) (toString df.id) = false := rfl
            rw [this] at hres
            simp only [Bool.false_eq_true, if_false,
              Option.some.injEq] at hres
            rw [← hres]
            exact hwf
          · by_cases hmatch : c.pw = inp
            · simp only [decryptJS, if_neg hinp, hmatch, if_true] at hres
              have hchk : jvalIsStrEq (.str c.payload) (toString df.id) =
                  true := by simp [jvalIsStrEq, hcpay']
              simp only [hchk, if_true] at hres
              refine moveRun_WF folders prompts selected (some d)
                (some inp) askPass g hwf (Or.inr ⟨d, df, inp, rfl, hfd,
                  hdfl, rfl, hinp, ?_⟩) res hres
              rw [hpc, ← hmatch]
              rfl
            · simp only [decryptJS, if_neg hinp, if_neg hmatch] at hres
              have : jvalIsStrEq JVal.jnull (toString df.id) = false := rfl
              rw [this] at hres
              simp only [Bool.false_eq_true, if_false,
                Option.some.injEq] at hres
              rw [← hres]
              exact hwf

/-- An individually locked prompt in a well-formed context satisfies its
own-lock invariant (its folder cannot be locked, since folder lock forces
the own flag clear). -/
theorem ownWF_of_promptWF_locked (folders : List Folder) (p : Prompt)
    (hwfp : promptWF folders p = true) (hpl : p.isLocked = true) :
    ownWF p = true := by
  unfold promptWF at hwfp
  cases hlf : lookupFolder folders p with
  | none => rw [hlf] at hwfp; exact hwfp
  | some f =>
    rw [hlf] at hwfp
    cases hfl : f.isLocked with
    | false => simp only [hfl, Bool.false_eq_true, if_false] at hwfp
               exact hwfp
    | true =>
      simp only [hfl, if_true, Bool.and_eq_true] at hwfp
      rw [hpl] at hwfp
      simp at hwfp

/-- The facts packaged in a locked entity's well-formed `passwordCheck`:
it is a ciphertext of the id string under a non-empty password. -/
theorem checkPw_facts (v : JVal) (idStr : String)
    (hv : (match v with
      | JVal.cipher c => c.payload == idStr && !(c.pw == "")
      | _ => false) = true) :
    checkPw v ≠ "" ∧ v = .cipher ⟨idStr, checkPw v,
      (match v with | JVal.cipher c => c.salt | _ => 0),
      (match v with | JVal.cipher c => c.iv | _ => 0)⟩ := by
  cases v with
  | str s => simp at hv
  | jnull => simp at hv
  | undef => simp at hv
  | cipher c =>
    obtain ⟨h1, h2⟩ := Bool.and_eq_true_iff.mp hv
    have h1' : c.payload = idStr := by simpa using h1
    have h2' : c.pw ≠ "" := by simpa using h2
    exact ⟨h2', by simp [checkPw, ← h1']⟩

/-- The prompt produced by a save into a locked destination folder, with
the folder's password, is well-formed. -/
theorem save_promptWF_destLocked (folders : List Folder) (d : Nat)
    (df : Folder) (p : Prompt) (t b n : String) (g : Nat) (ck : String)
    (hfd : folders.find? (fun f => f.id == d) = some df)
    (hdfl : df.isLocked = true) (hck : ck = checkPw df.passwordCheck)
    (hckne : ck ≠ "") (hnl : p.isLocked = false) :
    promptWF folders
      { p with body := encryptJS (.str b) ck g,
               notes := encryptJS (.str n) ck (g + 1), title := t,
               folderId := some d } = true := by
  subst hck
  unfold promptWF lookupFolder
  simp only [hfd, hdfl, if_true, hnl, Bool.not_false, Bool.true_and]
  refine Bool.and_eq_true_iff.mpr ⟨?_, ?_⟩
  · by_cases hb : b = "" <;>
      simp [encryptJS, fieldOk, cipherUnder, hb, hckne]
  · by_cases hn : n = "" <;>
      simp [encryptJS, fieldOk, cipherUnder, hn, hckne]

/-- The prompt produced by a save of an own-locked prompt with its own
password, into a password-free destination, is well-formed. -/
theorem save_promptWF_own (folders : List Folder) (fsel : Option Nat)
    (p : Prompt) (t b n : String) (g : Nat) (c : Cipher)
    (hdest : destUnlockedB folders fsel = true)
    (hpl : p.isLocked = true) (hpc : p.passwordCheck = .cipher c)
    (hpay : c.payload = toString p.id) (hcpw : c.pw ≠ "") :
    promptWF folders
      { p with body := encryptJS (.str b) c.pw g,
               notes := encryptJS (.str n) c.pw (g + 1), title := t,
               folderId := fsel } = true := by
  have hown : ownWF
      { p with body := encryptJS (.str b) c.pw g,
               notes := encryptJS (.str n) c.pw (g + 1), title := t,
               folderId := fsel } = true := by
    unfold ownWF
    simp only [hpl, if_true, hpc, hpay, Bool.and_eq_true]
    refine ⟨⟨⟨by simp, by simpa using hcpw⟩, ?_⟩, ?_⟩
    · by_cases hb : b = "" <;>
        simp [encryptJS, fieldOk, cipherUnder, hb, hcpw]
    · by_cases hn : n = "" <;>
        simp [encryptJS, fieldOk, cipherUnder, hn, hcpw]
  unfold promptWF lookupFolder
  unfold destUnlockedB at hdest
  cases fsel with
  | none => exact hown
  | some d =>
    simp only [] at hdest
    cases hfd : folders.find? (fun f => f.id == d) with
    | none => simp only [hfd]; exact hown
    | some df =>
      simp only [hfd] at hdest
      have : df.isLocked = false := by simpa using hdest
      simp only [hfd, this, Bool.false_eq_true, if_false]
      exact hown

/-- The prompt produced by a plaintext save into a password-free
destination is well-formed. -/
theorem save_promptWF_plain (folders : List Folder) (fsel : Option Nat)
    (p : Prompt) (t b n : String)
    (hdest : destUnlockedB folders fsel = true) (hnl : p.isLocked = false) :
    promptWF folders
      { p with body := .str b, notes := .str n, title := t,
               folderId := fsel } = true := by
  have hown : ownWF
      { p with body := .str b, notes := .str n, title := t,
               folderId := fsel } = true := by
    unfold ownWF
    simp [hnl, plainStr]
  unfold promptWF lookupFolder
  unfold destUnlockedB at hdest
  cases fsel with
  | none => exact hown
  | some d =>
    simp only [] at hdest
    cases hfd : folders.find? (fun f => f.id == d) with
    | none => simp only [hfd]; exact hown
    | some df =>
      simp only [hfd] at hdest
      have : df.isLocked = false := by simpa using hdest
      simp only [hfd, this, Bool.false_eq_true, if_false]
      exact hown

/-- `handleSavePromptExisting` preserves well-formedness provided the
session cache is accurate for the saved prompt's effective owner. -/
theorem saveExisting_WF (folders : List Folder) (prompts : List Prompt)
    (session : List (String × String)) (cid : Nat) (t b n : String)
    (fsel : Option Nat) (g : Nat)
    (hwf : stateWF folders prompts = true)
    (hok : (match prompts.find? (fun q => q.id == cid) with
      | some p => saveSessionOK folders session p fsel
      | none => true) = true) :
    ∀ res, handleSavePromptExisting prompts session cid t b n fsel g =
        some res → stateWF folders res.1 = true := by
  intro res hres
  obtain ⟨hFall, hPall⟩ := Bool.and_eq_true_iff.mp hwf
  have hfinish : ∀ (p' : Prompt), promptWF folders p' = true →
      ∀ g', (replacePrompt prompts p', g') = res →
      stateWF folders res.1 = true := by
    intro p' hp' g' heq
    rw [← heq]
    refine Bool.and_eq_true_iff.mpr ⟨hFall, ?_⟩
    refine List.all_eq_true.mpr ?_
    intro x hx
    rcases mem_replacePrompt prompts p' x hx with rfl | hxmem
    · exact hp'
    · exact (List.all_eq_true.mp hPall) x hxmem
  unfold handleSavePromptExisting at hres
  by_cases hempty : t = "" ∧ b = "" ∧ n = ""
  · simp only [if_pos hempty, Option.some.injEq] at hres
    rw [← hres]
    exact hwf
  · simp only [if_neg hempty] at hres
    cases hfind : prompts.find? (fun p => p.id == cid) with
    | none => rw [hfind] at hres; simp at hres
    | some p =>
      simp only [hfind] at hres hok
      have hpwf : promptWF folders p = true :=
        (List.all_eq_true.mp hPall) p (List.mem_of_find?_eq_some hfind)
      unfold saveSessionOK at hok
      cases hfsel : fsel with
      | some d =>
        rw [hfsel] at hres
        simp only [hfsel] at hok
        cases hfd : folders.find? (fun f => f.id == d) with
        | some df =>
          simp only [hfd] at hok
          cases hdfl : df.isLocked with
          | true =>
            simp only [hdfl, if_true] at hok
            obtain ⟨hpw, hnl⟩ := Bool.and_eq_true_iff.mp hok
            have hnl' : p.isLocked = false := by simpa using hnl
            have hdfwf : folderWF df = true :=
              (List.all_eq_true.mp hFall) df (List.mem_of_find?_eq_some hfd)
            unfold folderWF at hdfwf
            rw [hdfl] at hdfwf
            simp only [Bool.not_true, Bool.false_or] at hdfwf
            obtain ⟨hckne, -⟩ := checkPw_facts df.passwordCheck
              (toString df.id) hdfwf
            have hpweq : savePassword session p (some d) =
                some (checkPw df.passwordCheck) := by simpa using hpw
            unfold savePassword at hpweq
            rw [hpweq] at hres
            have htr : truthyOpt (some (checkPw df.passwordCheck)) =
                true := by simpa [truthyOpt] using hckne
            simp only [htr, if_true, Option.getD_some,
              Option.some.injEq] at hres
            exact hfinish _ (save_promptWF_destLocked folders d df p t b n
              g (checkPw df.passwordCheck) hfd hdfl rfl hckne hnl') _ hres
          | false =>
            simp only [hdfl, Bool.false_eq_true, if_false] at hok
            have hdest : destUnlockedB folders (some d) = true := by
              simp [destUnlockedB, hfd, hdfl]
            cases hpl : p.isLocked with
            | true =>
              simp only [hpl, if_true] at hok
              have hownwf := ownWF_of_promptWF_locked folders p hpwf hpl
              unfold ownWF at hownwf
              rw [hpl] at hownwf
              simp only [if_true] at hownwf
              cases hpc : p.passwordCheck with
              | str s => rw [hpc] at hownwf; simp at hownwf
              | jnull => rw [hpc] at hownwf; simp at hownwf
              | undef => rw [hpc] at hownwf; simp at hownwf
              | cipher c =>
                rw [hpc] at hownwf
                simp only [Bool.and_eq_true] at hownwf
                obtain ⟨⟨⟨hpay, hcpw⟩, -⟩, -⟩ := hownwf
                have hpay' : c.payload = toString p.id := by simpa using hpay
                have hcpw' : c.pw ≠ "" := by simpa using hcpw
                have hpweq : savePassword session p (some d) =
                    some (checkPw p.passwordCheck) := by simpa using hok
                unfold savePassword at hpweq
                rw [hpweq] at hres
                have hckp : checkPw p.passwordCheck = c.pw := by
                  rw [hpc]; rfl
                rw [hckp] at hres
                have htr : truthyOpt (some c.pw) = true := by
                  simpa [truthyOpt] using hcpw'
                simp only [htr, if_true, Option.getD_some,
                  Option.some.injEq] at hres
                exact hfinish _ (save_promptWF_own folders (some d) p t b
                  n g c hdest hpl hpc hpay' hcpw') _ hres
            | false =>
              simp only [hpl, Bool.false_eq_true, if_false] at hok
              have hfalsy : truthyOpt (savePassword session p (some d)) =
                  false := by simpa using hok
              unfold savePassword at hfalsy
              rw [hfalsy] at hres
              simp only [Bool.false_eq_true, if_false,
                Option.some.injEq] at hres
              exact hfinish _ (save_promptWF_plain folders (some d) p t b
                n hdest hpl) _ hres
        | none =>
          simp only [hfd] at hok
          have hdest : destUnlockedB folders (some d) = true := by
            simp [destUnlockedB, hfd]
          cases hpl : p.isLocked with
          | true =>
            simp only [hpl, if_true] at hok
            have hownwf := ownWF_of_promptWF_locked folders p hpwf hpl
            unfold ownWF at hownwf
            rw [hpl] at hownwf
            simp only [if_true] at hownwf
            cases hpc : p.passwordCheck with
            | str s => rw [hpc] at hownwf; simp at hownwf
            | jnull => rw [hpc] at hownwf; simp at hownwf
            | undef => rw [hpc] at hownwf; simp at hownwf
            | cipher c =>
              rw [hpc] at hownwf
              simp only [Bool.and_eq_true] at hownwf
              obtain ⟨⟨⟨hpay, hcpw⟩, -⟩, -⟩ := hownwf
              have hpay' : c.payload = toString p.id := by simpa using hpay
              have hcpw' : c.pw ≠ "" := by simpa using hcpw
              have hpweq : savePassword session p (some d) =
                  some (checkPw p.passwordCheck) := by simpa using hok
              unfold savePassword at hpweq
              rw [hpweq] at hres
              have hckp : checkPw p.passwordCheck = c.pw := by
                rw [hpc]; rfl
              rw [hckp] at hres
              have htr : truthyOpt (some c.pw) = true := by
                simpa [truthyOpt] using hcpw'
              simp only [htr, if_true, Option.getD_some,
                Option.some.injEq] at hres
              exact hfinish _ (save_promptWF_own folders (some d) p t b n
                g c hdest hpl hpc hpay' hcpw') _ hres
          | false =>
            simp only [hpl, Bool.false_eq_true, if_false] at hok
            have hfalsy : truthyOpt (savePassword session p (some d)) =
                false := by simpa using hok
            unfold savePassword at hfalsy
            rw [hfalsy] at hres
            simp only [Bool.false_eq_true, if_false,
              Option.some.injEq] at hres
            exact hfinish _ (save_promptWF_plain folders (some d) p t b n
              hdest hpl) _ hres
      | none =>
        rw [hfsel] at hres
        simp only [hfsel] at hok
        have hdest : destUnlockedB folders none = true := by
          simp [destUnlockedB]
        cases hpl : p.isLocked with
        | true =>
          simp only [hpl, if_true] at hok
          have hownwf := ownWF_of_promptWF_locked folders p hpwf hpl
          unfold ownWF at hownwf
          rw [hpl] at hownwf
          simp only [if_true] at hownwf
          cases hpc : p.passwordCheck with
          | str s => rw [hpc] at hownwf; simp at hownwf
          | jnull => rw [hpc] at hownwf; simp at hownwf
          | undef => rw [hpc] at hownwf; simp at hownwf
          | cipher c =>
            rw [hpc] at hownwf
            simp only [Bool.and_eq_true] at hownwf
            obtain ⟨⟨⟨hpay, hcpw⟩, -⟩, -⟩ := hownwf
            have hpay' : c.payload = toString p.id := by simpa using hpay
            have hcpw' : c.pw ≠ "" := by simpa using hcpw
            have hpweq : savePassword session p none =
                some (checkPw p.passwordCheck) := by simpa using hok
            unfold savePassword at hpweq
            rw [hpweq] at hres
            have hckp : checkPw p.passwordCheck = c.pw := by
              rw [hpc]; rfl
            rw [hckp] at hres
            have htr : truthyOpt (some c.pw) = true := by
              simpa [truthyOpt] using hcpw'
            simp only [htr, if_true, Option.getD_some,
              Option.some.injEq] at hres
            exact hfinish _ (save_promptWF_own folders none p t b n g c
              hdest hpl hpc hpay' hcpw') _ hres
        | false =>
          simp only [hpl, Bool.false_eq_true, if_false] at hok
          have hfalsy : truthyOpt (savePassword session p none) = false :=
            by simpa using hok
          unfold savePassword at hfalsy
          rw [hfalsy] at hres
          simp only [Bool.false_eq_true, if_false,
            Option.some.injEq] at hres
          exact hfinish _ (save_promptWF_plain folders none p t b n hdest
            hpl) _ hres

/-- A well-shaped locked field is ciphertext-shaped or the empty
string. -/
theorem fieldOk_shape (v : JVal) (pw : String) (h : fieldOk v pw = true) :
    (isCipher v || v == .str "") = true := by
  unfold fieldOk cipherUnder at h
  cases v with
  | str s => simpa [isCipher] using h
  | cipher c => simp [isCipher]
  | jnull => simp at h
  | undef => simp at h

/-- C5 (amended): the representation invariant holds with one exception
the counterexample forces - an empty `body`/`notes` stays the empty
string instead of becoming ciphertext-shaped when its owner is locked -
and in that amended form it is implied by the well-formedness predicate
`stateWF` (which additionally records that ciphertexts are under the
owner's true password and that a locked folder's prompts carry no own
lock); `stateWF` is preserved by each modelled state-mutating operation
(folder lock toggle, batch move, save of an existing prompt) under the
operation side conditions `opOKB`: locking a folder must not capture an
individually locked prompt, and a save must find a session cache entry
matching the effective owner's lock state; the move handler needs no side
condition. -/
theorem promptcat_C5_amended :
    (∀ (folders : List Folder) (prompts : List Prompt),
      stateWF folders prompts = true →
      amendedShapeInvB folders prompts = true) ∧
    (∀ (st : VaultState) (op : VaultOp),
      stateWF st.folders st.prompts = true → opOKB st op = true →
      ∀ st', applyOp st op = some st' →
        stateWF st'.folders st'.prompts = true) := by
  constructor
  · intro folders prompts hwf
    obtain ⟨hFall, hPall⟩ := Bool.and_eq_true_iff.mp hwf
    refine List.all_eq_true.mpr ?_
    intro p hp
    have hpwf := (List.all_eq_true.mp hPall) p hp
    unfold promptWF at hpwf
    cases hlf : lookupFolder folders p with
    | some f =>
      rw [hlf] at hpwf
      cases hfl : f.isLocked with
      | true =>
        simp only [hfl, if_true, Bool.and_eq_true] at hpwf
        obtain ⟨⟨-, hbok⟩, hnok⟩ := hpwf
        simp only [hlf, hfl, Bool.true_or, if_true]
        exact Bool.and_eq_true_iff.mpr
          ⟨fieldOk_shape _ _ hbok, fieldOk_shape _ _ hnok⟩
      | false =>
        simp only [hfl, Bool.false_eq_true, if_false] at hpwf
        simp only [hlf, hfl, Bool.false_or]
        cases hpl : p.isLocked with
        | true =>
          unfold ownWF at hpwf
          rw [hpl] at hpwf
          simp only [if_true] at hpwf
          cases hpc : p.passwordCheck with
          | str s => rw [hpc] at hpwf; simp at hpwf
          | jnull => rw [hpc] at hpwf; simp at hpwf
          | undef => rw [hpc] at hpwf; simp at hpwf
          | cipher c =>
            rw [hpc] at hpwf
            simp only [Bool.and_eq_true] at hpwf
            obtain ⟨⟨-, hbok⟩, hnok⟩ := hpwf
            simp only [if_true]
            exact Bool.and_eq_true_iff.mpr
              ⟨fieldOk_shape _ _ hbok, fieldOk_shape _ _ hnok⟩
        | false =>
          unfold ownWF at hpwf
          rw [hpl] at hpwf
          simp only [Bool.false_eq_true, if_false] at hpwf
          simp only [Bool.false_eq_true, if_false]
          exact hpwf
    | none =>
      rw [hlf] at hpwf
      simp only [hlf, Bool.false_or]
      cases hpl : p.isLocked with
      | true =>
        unfold ownWF at hpwf
        rw [hpl] at hpwf
        simp only [if_true] at hpwf
        cases hpc : p.passwordCheck with
        | str s => rw [hpc] at hpwf; simp at hpwf
        | jnull => rw [hpc] at hpwf; simp at hpwf
        | undef => rw [hpc] at hpwf; simp at hpwf
        | cipher c =>
          rw [hpc] at hpwf
          simp only [Bool.and_eq_true] at hpwf
          obtain ⟨⟨-, hbok⟩, hnok⟩ := hpwf
          simp only [if_true]
          exact Bool.and_eq_true_iff.mpr
            ⟨fieldOk_shape _ _ hbok, fieldOk_shape _ _ hnok⟩
      | false =>
        unfold ownWF at hpwf
        rw [hpl] at hpwf
        simp only [Bool.false_eq_true, if_false] at hpwf
        simp only [Bool.false_eq_true, if_false]
        exact hpwf
  · intro st op hwf hok st' happ
    cases op with
    | toggleFolderLock fid resp =>
      unfold applyOp at happ
      cases h : handleToggleFolderLock st.folders st.prompts fid resp
          st.gen with
      | none => simp [h] at happ
      | some r =>
        simp only [h, Option.map_some', Option.some.injEq] at happ
        rw [← happ]
        exact toggleFolderLock_WF st.folders st.prompts fid resp st.gen
          hwf hok r h
    | confirmMove sel dst inp ask =>
      unfold applyOp at happ
      cases h : handleConfirmMove st.folders st.prompts sel dst inp ask
          st.gen with
      | none => simp [h] at happ
      | some r =>
        simp only [h, Option.map_some', Option.some.injEq] at happ
        rw [← happ]
        exact confirmMove_WF st.folders st.prompts sel dst inp ask st.gen
          hwf r h
    | saveExisting cid t b n fsel =>
      unfold applyOp at happ
      cases h : handleSavePromptExisting st.prompts st.session cid t b n
          fsel st.gen with
      | none => simp [h] at happ
      | some r =>
        simp only [h, Option.map_some', Option.some.injEq] at happ
        rw [← happ]
        exact saveExisting_WF st.folders st.prompts st.session cid t b n
          fsel st.gen hwf hok r h

/-- Witness for C5 (amended): a concrete well-formed state (unlocked
folder 1, prompt 2 with plain non-empty fields) satisfies the amended
shape invariant, and locking the folder with password `"a"` yields a
state that is again well-formed. -/
theorem promptcat_C5_amended_witness :
    stateWF [⟨1, "F", false, .jnull⟩]
      [⟨2, "t", .str "x", .str "y", some 1, false, .jnull⟩] = true ∧
    amendedShapeInvB [⟨1, "F", false, .jnull⟩]
      [⟨2, "t", .str "x", .str "y", some 1, false, .jnull⟩] = true ∧
    stateWF [⟨1, "F", true, .cipher ⟨"1", "a", 0, 0⟩⟩]
      [⟨2, "t", .cipher ⟨"x", "a", 1, 1⟩, .cipher ⟨"y", "a", 2, 2⟩, some 1,
        false, .jnull⟩] = true :=
  ⟨by decide,
   promptcat_C5_amended.1 [⟨1, "F", false, .jnull⟩]
     [⟨2, "t", .str "x", .str "y", some 1, false, .jnull⟩] (by decide),
   promptcat_C5_amended.2
     ⟨[⟨1, "F", false, .jnull⟩],
      [⟨2, "t", .str "x", .str "y", some 1, false, .jnull⟩], [], 0⟩
     (.toggleFolderLock 1 (some "a")) (by decide) (by decide)
     ⟨[⟨1, "F", true, .cipher ⟨"1", "a", 0, 0⟩⟩],
      [⟨2, "t", .cipher ⟨"x", "a", 1, 1⟩, .cipher ⟨"y", "a", 2, 2⟩, some 1,
        false, .jnull⟩], [], 3⟩ (by rfl)⟩
